import Mathlib

/-!
# Verification of the starpls semantic-analysis core

A shallow embedding of the type-inference engine (`crates/starpls_hir/src/typeck.rs`),
the code-flow-graph builder (`crates/starpls_hir/src/def/codeflow.rs`) and the
check-mode dialect inference (`crates/starpls/src/check.rs`), together with proofs
about them.

Machine integers in the source are arena indices and counters; they are modelled
as `Nat`.  Interned `Ty` handles have pointer identity exactly when they are
structurally equal, so interned types are modelled as the structural type `TyKind`
itself and handle identity as propositional equality.  Panics and the cancellation
unwind are modelled by an `Outcome` result that is threaded together with the
mutable inference state (the state survives unwinding in the source, since it
lives behind a mutex in `GlobalCtxt`).  Recursion through arena indices is not
structurally decreasing, so the recursive engine functions take an explicit fuel
parameter; running out of fuel is reported as the `other` unwind payload, which
no theorem below treats as a successful run.
-/

/-- Severity of a diagnostic (`starpls_common::Severity`). -/
inductive Severity where
  | warning
  | error
deriving DecidableEq, Repr

/-- A file id plus a text range (`starpls_common::FileRange`).  Text ranges are
opaque to inference, so they are modelled as `Nat` tokens. -/
structure FileRange where
  fileId : Nat
  range : Nat
deriving DecidableEq, Repr

/-- A diagnostic record (`starpls_common::Diagnostic`). -/
structure Diagnostic where
  message : String
  severity : Severity
  range : FileRange
deriving DecidableEq, Repr

/-- Starlark dialect (`starpls_common::Dialect`). -/
inductive Dialect where
  | standard
  | bazel
deriving DecidableEq, Repr

/-- A reference to a type in a source file (`typeck::TypeRef`). -/
inductive TypeRef where
  | name (n : String)
  | unknown
deriving DecidableEq, Repr

/-- Interned type terms (`typeck::TyKind`).  A `Substitution` is its list of
argument types (`Substitution { args }`), inlined here as `List TyKind`. -/
inductive TyKind where
  | unbound
  | unknown
  | any
  | none
  | bool
  | int
  | float
  | string
  | stringElems
  | bytes
  | bytesElems
  | list (ty : TyKind)
  | tuple (tys : List TyKind)
  | dict (key value : TyKind)
  | range
  | function (func : Nat)
  | builtinFunction (func : Nat) (subst : List TyKind)
  | customFunction (func : Nat)
  | customType (ty : Nat)
  | boundVar (index : Nat)

/-- Structural equality test on interned type terms.  Two interned `Ty` handles
are identical exactly when their kinds are structurally equal, so this is the
handle-identity test. -/
def TyKind.beq : TyKind → TyKind → Bool
  | .unbound, b => match b with | .unbound => true | _ => false
  | .unknown, b => match b with | .unknown => true | _ => false
  | .any, b => match b with | .any => true | _ => false
  | .none, b => match b with | .none => true | _ => false
  | .bool, b => match b with | .bool => true | _ => false
  | .int, b => match b with | .int => true | _ => false
  | .float, b => match b with | .float => true | _ => false
  | .string, b => match b with | .string => true | _ => false
  | .stringElems, b => match b with | .stringElems => true | _ => false
  | .bytes, b => match b with | .bytes => true | _ => false
  | .bytesElems, b => match b with | .bytesElems => true | _ => false
  | .list a, b => match b with | .list b2 => TyKind.beq a b2 | _ => false
  | .tuple as, b => match b with | .tuple bs => beqList as bs | _ => false
  | .dict ka va, b =>
      match b with | .dict kb vb => TyKind.beq ka kb && TyKind.beq va vb | _ => false
  | .range, b => match b with | .range => true | _ => false
  | .function a, b => match b with | .function b2 => a == b2 | _ => false
  | .builtinFunction a sa, b =>
      match b with | .builtinFunction b2 sb => a == b2 && beqList sa sb | _ => false
  | .customFunction a, b => match b with | .customFunction b2 => a == b2 | _ => false
  | .customType a, b => match b with | .customType b2 => a == b2 | _ => false
  | .boundVar a, b => match b with | .boundVar b2 => a == b2 | _ => false
where
  beqList : List TyKind → List TyKind → Bool
  | [], [] => true
  | a :: as, b :: bs => TyKind.beq a b && beqList as bs
  | _, _ => false

theorem TyKind.beq_iff_aux : ∀ n : Nat,
    (∀ a b : TyKind, sizeOf a < n → (TyKind.beq a b = true ↔ a = b)) ∧
    (∀ as bs : List TyKind, sizeOf as < n → (TyKind.beq.beqList as bs = true ↔ as = bs)) := by
  intro n
  induction n with
  | zero =>
    exact ⟨fun a _ h => absurd h (Nat.not_lt_zero _),
      fun as _ h => absurd h (Nat.not_lt_zero _)⟩
  | succ n ih =>
    constructor
    · intro a b h
      cases a <;> cases b <;>
        simp only [TyKind.beq, beq_iff_eq, Bool.and_eq_true, reduceCtorEq, iff_false,
          Bool.false_eq_true, not_false_eq_true, TyKind.list.injEq, TyKind.tuple.injEq,
          TyKind.dict.injEq, TyKind.function.injEq, TyKind.builtinFunction.injEq,
          TyKind.customFunction.injEq, TyKind.customType.injEq, TyKind.boundVar.injEq]
      case list.list a b =>
        exact ih.1 a b (by simp at h; omega)
      case tuple.tuple as bs =>
        exact ih.2 as bs (by simp at h; omega)
      case dict.dict ka va kb vb =>
        rw [ih.1 ka kb (by simp at h; omega), ih.1 va vb (by simp at h; omega)]
      case builtinFunction.builtinFunction a sa b sb =>
        rw [ih.2 sa sb (by simp at h; omega)]
    · intro as bs h
      cases as <;> cases bs <;>
        simp only [TyKind.beq.beqList, Bool.and_eq_true, reduceCtorEq, iff_false,
          Bool.false_eq_true, not_false_eq_true, List.cons.injEq]
      case cons.cons a as b bs =>
        rw [ih.1 a b (by simp at h; omega), ih.2 as bs (by simp at h; omega)]

theorem TyKind.beq_iff (a b : TyKind) : TyKind.beq a b = true ↔ a = b :=
  (TyKind.beq_iff_aux (sizeOf a + 1)).1 a b (Nat.lt_succ_self _)

instance : BEq TyKind := ⟨TyKind.beq⟩

instance : LawfulBEq TyKind where
  eq_of_beq h := (TyKind.beq_iff _ _).mp h
  rfl := (TyKind.beq_iff _ _).mpr rfl

instance : DecidableEq TyKind := fun a b =>
  decidable_of_iff _ (TyKind.beq_iff a b)

namespace TyKind

/-- `Ty::is_any`. -/
def isAny (t : TyKind) : Bool := t == .any

/-- `Ty::is_unknown`: true for both `Unknown` and `Unbound`. -/
def isUnknownOrUnbound (t : TyKind) : Bool := t == .unknown || t == .unbound

end TyKind

/-- `Substitution::new_identity(num_vars)`: maps index `i` to `BoundVar(i)`. -/
def Substitution.newIdentity (numVars : Nat) : List TyKind :=
  (List.range numVars).map TyKind.boundVar

/-- `Ty::substitute`.  The source indexes `args[*index]` for a bound variable,
which panics when the index is out of range; the panic is modelled by `Option.none`. -/
def TyKind.substitute : TyKind → List TyKind → Option TyKind
  | .list ty, args => (ty.substitute args).map .list
  | .tuple tys, args => (substituteList tys args).map .tuple
  | .dict keyTy valueTy, args => do
      let k ← keyTy.substitute args
      let v ← valueTy.substitute args
      pure (.dict k v)
  | .builtinFunction data subst, args =>
      (substituteList subst args).map (.builtinFunction data)
  | .boundVar index, args => args.get? index
  | t, _ => some t
where
  /-- Pointwise substitution over a list of types (used for tuples and for
  `Substitution::substitute`). -/
  substituteList : List TyKind → List TyKind → Option (List TyKind)
  | [], _ => some []
  | t :: ts, args => do
      let t2 ← t.substitute args
      let ts2 ← substituteList ts args
      pure (t2 :: ts2)

/-- `Binders { num_vars, ty }`. -/
structure Binders where
  numVars : Nat
  ty : TyKind
deriving DecidableEq

/-- `Binders::substitute`: replaces bound variables of the body by the
substitution arguments. -/
def Binders.substitute (b : Binders) (subst : List TyKind) : Option TyKind :=
  b.ty.substitute subst

/-- `assign_tys(source, target)`: either side `Any`/`Unknown`/`Unbound`, or
structural equality. -/
def assignTys (source target : TyKind) : Bool :=
  source.isAny || source.isUnknownOrUnbound || target.isAny || target.isUnknownOrUnbound
    || source == target

/-! ## HIR data model

The HIR arenas (`def.rs`) are not under `src/`; the shapes below are modelled
from the spec (§3 "HIR module", §4.2) and from how `typeck.rs` and `codeflow.rs`
pattern-match them.  Arena ids (`ExprId`, `StmtId`, `ParamId`) are `Nat` indices
into lists. -/

/-- Modelled from the spec: a lowered literal (`def::Literal`). -/
inductive Literal where
  | int (n : Int)
  | float
  | string (s : String)
  | bytes
  | bool (b : Bool)
  | none
deriving DecidableEq

/-- Modelled from the spec: unary operators (`ast::UnaryOp`): arithmetic `+`/`-`,
bitwise inverse `~`, logical `not`. -/
inductive UnaryOp where
  | plus
  | minus
  | inv
  | not
deriving DecidableEq

/-- Modelled from the spec: arithmetic binary operators (`ast::ArithOp`). -/
inductive ArithOp where
  | add
  | sub
  | mul
  | div
  | mod
  | floorDiv
deriving DecidableEq

/-- Modelled from the spec: binary operators (`ast::BinaryOp`).  `typeck.rs`
distinguishes only arithmetic and bitwise operators; all remaining operators
(comparisons, logical operators, membership) fall into a catch-all arm, so they
are collapsed into tagged variants here. -/
inductive BinaryOp where
  | arith (op : ArithOp)
  | bitwise
  | cmp
  | logic
  | memb
deriving DecidableEq

/-- Modelled from the spec: a dict entry (`def::DictEntry`): key and value
expression ids. -/
structure DictEntry where
  key : Nat
  value : Nat
deriving DecidableEq

/-- Modelled from the spec: comprehension clauses (`def::CompClause`). -/
inductive CompClause where
  | forClause (iterable : Nat) (targets : List Nat)
  | ifClause (test : Nat)
deriving DecidableEq

/-- Modelled from the spec: call arguments (`def::Argument`). -/
inductive Argument where
  | simple (expr : Nat)
  | keyword (name : String) (expr : Nat)
  | unpackedList (expr : Nat)
  | unpackedDict (expr : Nat)
deriving DecidableEq

/-- The expression id carried by an argument. -/
def Argument.expr : Argument → Nat
  | .simple e => e
  | .keyword _ e => e
  | .unpackedList e => e
  | .unpackedDict e => e

/-- Modelled from the spec: HIR expressions (`def::Expr`).  A missing `Dot`
field name is modelled by the empty string (`Name::missing`). -/
inductive Expr where
  | missing
  | name (name : String)
  | literal (literal : Literal)
  | list (exprs : List Nat)
  | listComp (expr : Nat) (compClauses : List CompClause)
  | dict (entries : List DictEntry)
  | dictComp (entry : DictEntry) (compClauses : List CompClause)
  | unary (op : Option UnaryOp) (expr : Nat)
  | binary (lhs rhs : Nat) (op : Option BinaryOp)
  | dot (expr : Nat) (field : String)
  | index (lhs index : Nat)
  | call (callee : Nat) (args : List Argument)
  | tuple (exprs : List Nat)
  | paren (expr : Nat)
  | lambda (params : List Nat) (body : Nat)
  | ifExpr (thenExpr cond elseExpr : Nat)
deriving DecidableEq

/-- `Name::is_missing` for a `Dot` field name. -/
def nameIsMissing (n : String) : Bool := n == ""

/-- Modelled from the spec: `Expr::walk_child_exprs`, which visits the direct
child expression ids of an expression. -/
def Expr.childExprs : Expr → List Nat
  | .missing => []
  | .name _ => []
  | .literal _ => []
  | .list es => es
  | .listComp e clauses => clauses.flatMap compClauseExprs ++ [e]
  | .dict entries => entries.flatMap fun en => [en.key, en.value]
  | .dictComp en clauses => clauses.flatMap compClauseExprs ++ [en.key, en.value]
  | .unary _ e => [e]
  | .binary l r _ => [l, r]
  | .dot e _ => [e]
  | .index l i => [l, i]
  | .call callee args => callee :: args.map Argument.expr
  | .tuple es => es
  | .paren e => [e]
  | .lambda _ body => [body]
  | .ifExpr t c e => [t, c, e]
where
  compClauseExprs : CompClause → List Nat
  | .forClause iterable targets => iterable :: targets
  | .ifClause test => [test]

/-- Modelled from the spec: HIR statements (`def::Stmt`), with the fields the
code-flow builder matches on. -/
inductive Stmt where
  | missing
  | assign (lhs rhs : Nat)
  | defStmt (stmts : List Nat)
  | ifStmt (test : Nat) (ifStmts : List Nat) (elifOrElse : Option (Sum Nat (List Nat)))
  | forStmt (iterable : Nat) (targets : List Nat) (stmts : List Nat)
  | returnStmt (expr : Option Nat)
  | exprStmt (expr : Nat)
  | loadStmt
  | breakStmt
  | continueStmt
  | passStmt
deriving DecidableEq

/-- Modelled from the spec: the HIR module arenas (`def::Module`). -/
structure HirModule where
  exprs : List Expr
  stmts : List Stmt
  topLevel : List Nat

/-- Arena access `module.exprs[expr]`; out-of-range ids behave like the
error-node placeholder. -/
def HirModule.expr (m : HirModule) (e : Nat) : Expr :=
  (m.exprs.get? e).getD .missing

/-- Arena access `module.stmts[stmt]`. -/
def HirModule.stmt (m : HirModule) (s : Nat) : Stmt :=
  (m.stmts.get? s).getD .missing

/-- Modelled from the spec: function parameters (`def::Param`). -/
inductive Param where
  | simple (name : String) (typeRef : Option TypeRef)
  | argsList (name : String) (typeRef : Option TypeRef)
  | kwargsList (name : String)
deriving DecidableEq

/-- Modelled from the spec: declarations returned by the resolver
(`def::Declaration`), with the payloads `typeck.rs` consumes. -/
inductive Declaration where
  | variable (id : Nat) (source : Option Nat)
  | function (func : Nat)
  | parameter (id : Nat)
  | loadItem
  | builtinVariable
  | builtinFunction (func : Nat)
  | customFunction (func : Nat)
  | customVariable (typeRef : TypeRef)
deriving DecidableEq

/-- Modelled from the spec: parameters of a built-in function
(`builtins::BuiltinFunctionParam`). -/
inductive BuiltinFunctionParam where
  | positional (ty : TyKind) (optional : Bool)
  | keyword (name : String) (ty : TyKind)
  | varArgList (ty : TyKind)
  | varArgDict
deriving DecidableEq

/-- Modelled from the spec: `BuiltinFunctionParam::is_optional`.  Positional
parameters carry an explicit flag; keyword and vararg parameters are optional. -/
def BuiltinFunctionParam.isOptional : BuiltinFunctionParam → Bool
  | .positional _ optional => optional
  | .keyword _ _ => true
  | .varArgList _ => true
  | .varArgDict => true

/-- Modelled from the spec: the interned data of a built-in function
(`builtins::BuiltinFunction`): parameters and return type may reference
`BoundVar(0..num_vars)`. -/
structure BuiltinFunctionData where
  name : String
  numVars : Nat
  params : List BuiltinFunctionParam
  retTy : TyKind

/-- Modelled from the spec: the interned data of a custom (Bazel) function
(`custom::CustomFunction`). -/
structure CustomFunctionData where
  name : String
  retTypeRef : TypeRef

/-- Modelled from the spec: the interned data of a custom (Bazel) type
(`custom::CustomType`): named fields with type references, plus methods. -/
structure CustomTypeData where
  name : String
  fields : List (String × TypeRef)
  methods : List Nat

/-- The syntactic parent of a source expression, as classified by
`infer_source_expr_assign` through the source map: an assignment statement
(with its lhs mapped back to an `ExprId`), a `for` statement or `for`
comprehension clause (with its targets mapped back to `ExprId`s), or any
other node. -/
inductive AssignParent where
  | assignStmt (lhs : Option Nat)
  | forParent (targets : List Nat)
  | other

/-- The read-only context a `TyCtxt` draws from: the lowered module, the
resolver, the source map back-pointers, and the built-in/custom catalogs.
The resolver (`def::resolver`), source maps and catalog loaders are not under
`src/`; they are modelled from the spec as opaque functions of this record. -/
structure Env where
  fileId : Nat
  module : HirModule
  resolveName : Nat → String → Option (List Declaration)
  parentOf : Nat → Option AssignParent
  exprRange : Nat → Option Nat
  paramRange : Nat → Option Nat
  params : List Param
  builtinFns : Nat → BuiltinFunctionData
  customFns : Nat → CustomFunctionData
  customTypes : Nat → CustomTypeData
  customTypeByName : String → Option TyKind
  stringFields : List (String × Binders)
  bytesFields : List (String × Binders)
  listFields : List (String × Binders)
  dictFields : List (String × Binders)
  displayUserFn : Nat → String
  displayBuiltinFn : Nat → List TyKind → String
  displayCustomFn : Nat → String

/-! ## Inference state -/

/-- The mutex-guarded mutable inference state (`typeck::InferenceCtxt`):
accumulated diagnostics plus the two memo tables, modelled as association
lists in which a later insertion shadows an earlier one (the lookup behaviour
of `FxHashMap::insert`). -/
structure InferenceCtxt where
  diagnostics : List Diagnostic
  paramTys : List (Nat × TyKind)
  typeOfExpr : List (Nat × TyKind)
deriving DecidableEq

instance : Inhabited InferenceCtxt := ⟨⟨[], [], []⟩⟩

/-- The full engine state at a point of an inference run: the shared
cancellation flag (`SharedState::cancelled`) and the inference context. -/
structure St where
  cancelled : Bool
  cx : InferenceCtxt
deriving DecidableEq

/-- A panic payload carried by an unwind: the two cancellation signals the
engine throws (`salsa::Cancelled`, `typeck::TypecheckCancelled`) or any other
panic (including, in this model, fuel exhaustion). -/
inductive UnwindPayload where
  | typecheckCancelled
  | salsaCancelled
  | other
deriving DecidableEq

/-- The result of running a piece of engine code: a value, or an unwind with a
payload.  The state is threaded alongside because the inference context lives
behind a mutex and survives an unwind. -/
inductive Outcome (α : Type) where
  | ok (val : α)
  | panicked (payload : UnwindPayload)
deriving DecidableEq

/-- The recoverable cancellation error (`typeck::Cancelled`). -/
inductive Cancelled where
  | salsa
  | typecheck
deriving DecidableEq

/-- `Cancelled::catch`: converts the two cancellation payloads into a
recoverable `Err`, and resumes the unwind for any other payload. -/
def Cancelled.catch {α : Type} : Outcome α × St → Outcome (Except Cancelled α) × St
  | (.ok a, s) => (.ok (.ok a), s)
  | (.panicked .salsaCancelled, s) => (.ok (.error .salsa), s)
  | (.panicked .typecheckCancelled, s) => (.ok (.error .typecheck), s)
  | (.panicked .other, s) => (.panicked .other, s)

/-- `GlobalCtxt::cancel` / `CancelGuard::new`: raises the shared cancellation
flag. -/
def cancelGuardNew (s : St) : St :=
  { s with cancelled := true }

/-- `CancelGuard::drop`: lowers the flag and resets the inference context to
its default (empty) value. -/
def cancelGuardDrop (_prev : St) : St :=
  { cancelled := false, cx := default }

/-- Memo-table lookup (`FxHashMap::get`). -/
def lookupTy (m : List (Nat × TyKind)) (k : Nat) : Option TyKind :=
  List.lookup k m

/-- `TyCtxt::set_expr_type`: inserts into the expression memo table and returns
the type. -/
def setExprType (e : Nat) (ty : TyKind) (s : St) : TyKind × St :=
  (ty, { s with cx := { s.cx with typeOfExpr := (e, ty) :: s.cx.typeOfExpr } })

/-- `TyCtxt::add_diagnostic_for_range`: pushes a diagnostic with severity
`Error`. -/
def addDiagnosticForRange (env : Env) (range : Nat) (message : String) (s : St) : St :=
  { s with cx := { s.cx with diagnostics := s.cx.diagnostics ++
      [{ message := message, severity := .error,
         range := { fileId := env.fileId, range := range } }] } }

/-- `TyCtxt::add_diagnostic`: attaches a diagnostic to the expression's mapped
text range and returns the `Unknown` type; when the source map has no
back-pointer for the expression, no diagnostic is emitted. -/
def addDiagnostic (env : Env) (e : Nat) (message : String) (s : St) : TyKind × St :=
  match env.exprRange e with
  | Option.none => (.unknown, s)
  | Option.some r => (.unknown, addDiagnosticForRange env r message s)

/-! ## Type display

`DisplayWithDb for TyKind`.  Function signatures are rendered from data that
lives outside `src/` (`def.rs` functions, the catalogs), so their rendering is
drawn from the environment. -/

/-- `TyKind::fmt`: the plain display of a type. -/
def displayTy (env : Env) : TyKind → String
  | .unbound => "Unbound"
  | .unknown => "Unknown"
  | .any => "Any"
  | .none => "None"
  | .bool => "bool"
  | .int => "int"
  | .float => "float"
  | .string => "string"
  | .stringElems => "string.elems"
  | .bytes => "bytes"
  | .bytesElems => "bytes.elems"
  | .list ty => "list[" ++ displayTy env ty ++ "]"
  | .tuple tys => "tuple[" ++ displayList env tys ++ "]"
  | .dict keyTy valueTy =>
      "dict[" ++ displayTy env keyTy ++ ", " ++ displayTy env valueTy ++ "]"
  | .range => "range"
  | .function func => env.displayUserFn func
  | .builtinFunction func subst => env.displayBuiltinFn func subst
  | .customFunction func => env.displayCustomFn func
  | .customType ty => (env.customTypes ty).name
  | .boundVar index => "\x27" ++ toString index
where
  displayList (env : Env) : List TyKind → String
  | [] => ""
  | [t] => displayTy env t
  | t :: ts => displayTy env t ++ ", " ++ displayList env ts

/-- `TyKind::fmt_alt`: like `fmt` but renders function kinds generically. -/
def displayTyAlt (env : Env) : TyKind → String
  | .function _ => "function"
  | .builtinFunction _ _ => "builtin_function_or_method"
  | .customFunction _ => "builtin_function_or_method"
  | t => displayTy env t

/-! ## Type-reference resolution and fields -/

/-- `resolve_type_ref`: recognizes the predefined type names, otherwise
consults the custom-type catalog; an unresolved name yields `None`. -/
def resolveTypeRef (env : Env) : TypeRef → Option TyKind
  | .name n =>
      match n with
      | "None" => some .none
      | "NoneType" => some .none
      | "bool" => some .bool
      | "int" => some .int
      | "float" => some .float
      | "string" => some .string
      | "bytes" => some .bytes
      | "list" => some (.list .any)
      | "dict" => some (.dict .any .any)
      | "range" => some .range
      | other => env.customTypeByName other
  | .unknown => some .unknown

/-- The four predefined base classes (`BuiltinTypes`): `string`, `bytes`,
`list` and `dict`. -/
inductive BuiltinClass where
  | stringClass
  | bytesClass
  | listClass
  | dictClass
deriving DecidableEq

/-- `TyKind::builtin_class`. -/
def builtinClass : TyKind → Option BuiltinClass
  | .string => some .stringClass
  | .bytes => some .bytesClass
  | .list _ => some .listClass
  | .dict _ _ => some .dictClass
  | _ => Option.none

/-- The field list of a base class from the catalog (`BuiltinClass::fields`
with `builtin_field_types`). -/
def classFields (env : Env) : BuiltinClass → List (String × Binders)
  | .stringClass => env.stringFields
  | .bytesClass => env.bytesFields
  | .listClass => env.listFields
  | .dictClass => env.dictFields

/-- `Ty::builtin_class_fields`: the receiver builds the substitution (`list`
contributes its element type, `dict` its key and value types) and each field's
binders are substituted.  `Option.none` models a substitution panic. -/
def builtinClassFields (env : Env) (receiver : TyKind) (cls : BuiltinClass) :
    Option (List (String × TyKind)) :=
  let subst : List TyKind :=
    match receiver with
    | .list ty => [ty]
    | .dict keyTy valueTy => [keyTy, valueTy]
    | _ => []
  (classFields env cls).mapM fun p => (p.2.substitute subst).map (fun t => (p.1, t))

/-- Result of `Ty::fields`: the receiver has no fields (`None` in the source),
a field list, or a substitution panic. -/
inductive FieldsResult where
  | noFields
  | fields (fs : List (String × TyKind))
  | panic
deriving DecidableEq

/-- `Ty::fields`: fields of a built-in base class under the receiver's
substitution, or a custom type's fields and methods. -/
def tyFields (env : Env) (receiver : TyKind) : FieldsResult :=
  match builtinClass receiver with
  | Option.some cls =>
      match builtinClassFields env receiver cls with
      | Option.some fs => .fields fs
      | Option.none => .panic
  | Option.none =>
      match receiver with
      | .customType id =>
          .fields
            (((env.customTypes id).fields.map fun p =>
                (p.1, (resolveTypeRef env p.2).getD .unknown)) ++
              ((env.customTypes id).methods.map fun f =>
                ((env.customFns f).name, TyKind.customFunction f)))
      | _ => .noFields

/-! ## Parameter types -/

/-- `TyCtxt::lower_param_type_ref`: resolves a parameter's type reference; an
unresolved *named* reference additionally emits `Unknown type "name" in type
comment` on the parameter's range (when the source map has one). -/
def lowerParamTypeRef (env : Env) (p : Nat) (typeRef : TypeRef) (s : St) :
    Option TyKind × St :=
  match resolveTypeRef env typeRef with
  | Option.some ty => (Option.some ty, s)
  | Option.none =>
      match typeRef with
      | .unknown => (Option.none, s)
      | .name n =>
          match env.paramRange p with
          | Option.none => (Option.none, s)
          | Option.some r =>
              (Option.none,
                addDiagnosticForRange env r
                  ("Unknown type \"" ++ n ++ "\" in type comment") s)

/-- `TyCtxt::param_ty`: memoized; `Simple` resolves its type reference (or
`Unknown`), `ArgsList` wraps it in a list, `KwargsList` is `dict[Any, Any]`.
An out-of-range parameter id is an arena-index panic. -/
def paramTy (env : Env) (p : Nat) (s : St) : Outcome TyKind × St :=
  match lookupTy s.cx.paramTys p with
  | Option.some ty => (.ok ty, s)
  | Option.none =>
      match env.params.get? p with
      | Option.none => (.panicked .other, s)
      | Option.some param =>
          let r : TyKind × St :=
            match param with
            | .simple _ typeRef =>
                match typeRef with
                | Option.none => (.unknown, s)
                | Option.some tr =>
                    match lowerParamTypeRef env p tr s with
                    | (Option.some ty, s2) => (ty, s2)
                    | (Option.none, s2) => (.unknown, s2)
            | .argsList _ typeRef =>
                match typeRef with
                | Option.none => (.list .unknown, s)
                | Option.some tr =>
                    match lowerParamTypeRef env p tr s with
                    | (Option.some ty, s2) => (.list ty, s2)
                    | (Option.none, s2) => (.list .unknown, s2)
            | .kwargsList _ => (.dict .any .any, s)
          (.ok r.1,
            { r.2 with cx := { r.2.cx with paramTys := (p, r.1) :: r.2.cx.paramTys } })

/-! ## Call slot binding (PEP-3102-style matching in the `Call` arm) -/

/-- A provider filling a slot (`SlotProvider` in the `Call` arm). -/
inductive SlotProvider where
  | missing
  | single (expr : Nat) (ty : TyKind)
  | varArgList (expr : Nat) (ty : TyKind)
  | varArgDict (expr : Nat) (ty : TyKind)
deriving DecidableEq

/-- A parameter slot (`Slot` in the `Call` arm). -/
inductive Slot where
  | positional (provider : SlotProvider)
  | keyword (name : String) (provider : SlotProvider)
  | varArgList (providers : List SlotProvider)
  | varArgDict (providers : List SlotProvider)
deriving DecidableEq

/-- The slot-building loop: one slot per valid parameter.  A positional
parameter after a `*args` parameter is dropped (with the whole tail, via
`break`); nothing follows a `**kwargs` parameter. -/
def buildSlots : List BuiltinFunctionParam → Bool → List Slot
  | [], _ => []
  | p :: rest, sawVararg =>
      match p with
      | .positional _ _ =>
          if sawVararg then []
          else .positional .missing :: buildSlots rest sawVararg
      | .keyword n _ => .keyword n .missing :: buildSlots rest sawVararg
      | .varArgList _ => .varArgList [] :: buildSlots rest true
      | .varArgDict => [.varArgDict []]

/-- Placement of a `Simple` argument: the first empty positional slot, else the
`*args` slot; `Option.none` when no slot accepts it. -/
def fillSimple (slots : List Slot) (provider : SlotProvider) : Option (List Slot) :=
  match slots with
  | [] => Option.none
  | slot :: rest =>
      match slot with
      | .positional .missing => Option.some (.positional provider :: rest)
      | .varArgList providers =>
          Option.some (.varArgList (providers ++ [provider]) :: rest)
      | _ => (fillSimple rest provider).map (slot :: ·)

/-- Placement of a `Keyword` argument: the keyword slot of matching name whose
provider is `Missing` or a prior `**`-unpack, else the `*args` slot. -/
def fillKeyword (slots : List Slot) (argName : String) (provider : SlotProvider) :
    Option (List Slot) :=
  match slots with
  | [] => Option.none
  | slot :: rest =>
      match slot with
      | .keyword nm p =>
          if argName == nm &&
              (match p with
               | .missing => true
               | .varArgDict _ _ => true
               | _ => false) then
            Option.some (.keyword nm provider :: rest)
          else (fillKeyword rest argName provider).map (slot :: ·)
      | .varArgList providers =>
          Option.some (.varArgList (providers ++ [provider]) :: rest)
      | _ => (fillKeyword rest argName provider).map (slot :: ·)

/-- An `*`-unpacked argument marks every empty positional slot and the `*args`
slot as provided by it. -/
def markUnpackedList (slots : List Slot) (e : Nat) (ty : TyKind) : List Slot :=
  slots.map fun slot =>
    match slot with
    | .positional .missing => .positional (.varArgList e ty)
    | .varArgList providers => .varArgList (providers ++ [.varArgList e ty])
    | other => other

/-- A `**`-unpacked argument marks every keyword slot and the `**kwargs` slot
as provided by it. -/
def markUnpackedDict (slots : List Slot) (e : Nat) (ty : TyKind) : List Slot :=
  slots.map fun slot =>
    match slot with
    | .keyword nm _ => .keyword nm (.varArgDict e ty)
    | .varArgDict providers => .varArgDict (providers ++ [.varArgDict e ty])
    | other => other

/-- The argument-matching loop of the `Call` arm: walks arguments left to
right, filling slots and diagnosing arguments no slot accepts. -/
def processArgs (env : Env) : List (Argument × TyKind) → List Slot → St → List Slot × St
  | [], slots, s => (slots, s)
  | (arg, argTy) :: rest, slots, s =>
      match arg with
      | .simple e =>
          match fillSimple slots (.single e argTy) with
          | Option.some slots2 => processArgs env rest slots2 s
          | Option.none =>
              processArgs env rest slots
                (addDiagnostic env e "Unexpected positional argument" s).2
      | .keyword nm e =>
          match fillKeyword slots nm (.single e argTy) with
          | Option.some slots2 => processArgs env rest slots2 s
          | Option.none =>
              processArgs env rest slots
                (addDiagnostic env e
                  ("Unexpected keyword argument \"" ++ nm ++ "\"") s).2
      | .unpackedList e => processArgs env rest (markUnpackedList slots e argTy) s
      | .unpackedDict e => processArgs env rest (markUnpackedDict slots e argTy) s

/-- `validate_provider` in the `Call` arm: a missing provider on a
non-optional parameter and a single provider failing `assign_tys` diagnose;
unpacked-list/dict providers are not rechecked.  The assignability message
reproduces the source's spelling. -/
def validateProvider (env : Env) (callExpr : Nat) (param : BuiltinFunctionParam)
    (paramTy2 : TyKind) (provider : SlotProvider) (s : St) : St :=
  match provider with
  | .missing =>
      if param.isOptional then s
      else
        (addDiagnostic env callExpr
          ("Missing expected argument of type \"" ++ displayTy env paramTy2 ++ "\"") s).2
  | .single e ty =>
      if assignTys ty paramTy2 then s
      else
        (addDiagnostic env e
          ("Argument of type \"" ++ displayTyAlt env ty ++
            "\" cannot be assigned to paramter of type \"" ++
            displayTyAlt env paramTy2 ++ "\"") s).2
  | _ => s

/-- The unsubstituted type of a parameter in slot validation (`VarArgDict`
stands for `dict[Any, Any]`). -/
def slotParamTy : BuiltinFunctionParam → TyKind
  | .positional ty _ => ty
  | .keyword _ ty => ty
  | .varArgList ty => ty
  | .varArgDict => .dict .any .any

/-- Validation of every provider captured by one slot. -/
def validateSlotProviders (env : Env) (callExpr : Nat) (param : BuiltinFunctionParam)
    (paramTy1 : TyKind) (slot : Slot) (s : St) : St :=
  match slot with
  | .positional provider => validateProvider env callExpr param paramTy1 provider s
  | .keyword _ provider => validateProvider env callExpr param paramTy1 provider s
  | .varArgList providers =>
      providers.foldl (fun st pr => validateProvider env callExpr param paramTy1 pr st) s
  | .varArgDict providers =>
      providers.foldl (fun st pr => validateProvider env callExpr param paramTy1 pr st) s

/-- The validation loop of the `Call` arm over `params.zip(slots)`: computes
each parameter's substituted type and validates every provider of the slot.
A substitution panic unwinds. -/
def validateSlots (env : Env) (callExpr : Nat) (subst : List TyKind) :
    List (BuiltinFunctionParam × Slot) → St → Outcome Unit × St
  | [], s => (.ok (), s)
  | (param, slot) :: rest, s =>
      match (slotParamTy param).substitute subst with
      | Option.none => (.panicked .other, s)
      | Option.some paramTy1 =>
          validateSlots env callExpr subst rest
            (validateSlotProviders env callExpr param paramTy1 slot s)

/-- Display of a unary operator token (modelled from the spec; only used in
diagnostic text). -/
def UnaryOp.display : UnaryOp → String
  | .plus => "+"
  | .minus => "-"
  | .inv => "~"
  | .not => "not"

/-- Display of a binary operator token (modelled from the spec; the collapsed
variants render a representative token, used only in diagnostic text). -/
def BinaryOp.display : BinaryOp → String
  | .arith .add => "+"
  | .arith .sub => "-"
  | .arith .mul => "*"
  | .arith .div => "/"
  | .arith .mod => "%"
  | .arith .floorDiv => "//"
  | .bitwise => "&"
  | .cmp => "=="
  | .logic => "and"
  | .memb => "in"

/-- The common tail of almost every `infer_expr` arm: `set_expr_type` and
return the type.  The three early `return`s in the `Dot` arm bypass it. -/
def finishInfer (e : Nat) (ty : TyKind) (s : St) : Outcome TyKind × St :=
  let r := setExprType e ty s
  (.ok r.1, r.2)

/-! ## The inference engine

The mutually recursive engine functions of `TyCtxt`, threaded through `St` and
fueled.  Every recursive call decrements the fuel once, so a run with enough
fuel reproduces the source's recursion exactly and a run that exhausts the
fuel unwinds with the `other` payload. -/

mutual

/-- `TyCtxt::infer_expr`: memo lookup, cancellation poll, then one arm per
expression kind; every arm except the three early returns of the `Dot` arm
caches its result through `set_expr_type`. -/
def inferExpr : Nat → Env → Nat → St → Outcome TyKind × St
  | 0, _, _, s => (.panicked .other, s)
  | fuel + 1, env, e, s =>
    match lookupTy s.cx.typeOfExpr e with
    | Option.some ty => (.ok ty, s)
    | Option.none =>
      if s.cancelled then (.panicked .typecheckCancelled, s)
      else
        match env.module.expr e with
        | .name nm =>
            match (env.resolveName e nm).bind List.getLast? with
            | Option.some (Declaration.variable id src) =>
                (match src with
                 | Option.some source =>
                     (match inferSourceExprAssign fuel env source s with
                      | (.panicked p, s1) => (.panicked p, s1)
                      | (.ok _, s1) =>
                          match lookupTy s1.cx.typeOfExpr id with
                          | Option.some ty => finishInfer e ty s1
                          | Option.none => finishInfer e .unknown s1)
                 | Option.none => finishInfer e .unknown s)
            | Option.some (Declaration.function func) => finishInfer e (.function func) s
            | Option.some (Declaration.builtinFunction func) =>
                finishInfer e (.builtinFunction func (Substitution.newIdentity 0)) s
            | Option.some (Declaration.customFunction func) =>
                finishInfer e (.customFunction func) s
            | Option.some (Declaration.customVariable typeRef) =>
                finishInfer e ((resolveTypeRef env typeRef).getD .unknown) s
            | Option.some (Declaration.parameter id) =>
                (match paramTy env id s with
                 | (.panicked p, s1) => (.panicked p, s1)
                 | (.ok ty, s1) => finishInfer e ty s1)
            | Option.some Declaration.loadItem => finishInfer e .any s
            | Option.some Declaration.builtinVariable => finishInfer e .any s
            | Option.none =>
                let r := addDiagnostic env e ("\"" ++ nm ++ "\" is not defined") s
                finishInfer e .unbound r.2
        | .list es =>
            (match getCommonType fuel env es .unknown s with
             | (.panicked p, s1) => (.panicked p, s1)
             | (.ok t, s1) => finishInfer e (.list t) s1)
        | .listComp body _ =>
            (match inferExpr fuel env body s with
             | (.panicked p, s1) => (.panicked p, s1)
             | (.ok t, s1) => finishInfer e (.list t) s1)
        | .dict entries =>
            (match getCommonType fuel env (entries.map DictEntry.key) .any s with
             | (.panicked p, s1) => (.panicked p, s1)
             | (.ok keyTy, s1) =>
                 match getCommonType fuel env (entries.map DictEntry.value) .unknown s1 with
                 | (.panicked p, s2) => (.panicked p, s2)
                 | (.ok valueTy, s2) => finishInfer e (.dict keyTy valueTy) s2)
        | .dictComp entry _ =>
            (match inferExpr fuel env entry.key s with
             | (.panicked p, s1) => (.panicked p, s1)
             | (.ok keyTy, s1) =>
                 match inferExpr fuel env entry.value s1 with
                 | (.panicked p, s2) => (.panicked p, s2)
                 | (.ok valueTy, s2) => finishInfer e (.dict keyTy valueTy) s2)
        | .literal lit =>
            finishInfer e
              (match lit with
               | .int _ => .int
               | .float => .float
               | .string _ => .string
               | .bytes => .bytes
               | .bool _ => .bool
               | .none => .none) s
        | .unary op opExpr =>
            (match op with
             | Option.some o =>
                 (match inferUnaryExpr fuel env e opExpr o s with
                  | (.panicked p, s1) => (.panicked p, s1)
                  | (.ok ty, s1) => finishInfer e ty s1)
             | Option.none => finishInfer e .unknown s)
        | .binary lhs rhs op =>
            (match op with
             | Option.some o =>
                 (match inferBinaryExpr fuel env e lhs rhs o s with
                  | (.panicked p, s1) => (.panicked p, s1)
                  | (.ok ty, s1) => finishInfer e ty s1)
             | Option.none => finishInfer e .unknown s)
        | .dot recv field =>
            (match inferExpr fuel env recv s with
             | (.panicked p, s1) => (.panicked p, s1)
             | (.ok receiverTy, s1) =>
                 if receiverTy.isAny then (.ok .any, s1)
                 else if receiverTy.isUnknownOrUnbound || nameIsMissing field then
                   (.ok .unknown, s1)
                 else if (match receiverTy with
                          | .customType id => (env.customTypes id).name == "struct"
                          | _ => false) then
                   (.ok .unknown, s1)
                 else
                   match
                     (match tyFields env receiverTy with
                      | .panic => Option.none
                      | .noFields => Option.some []
                      | .fields fs => Option.some fs) with
                   | Option.none => (.panicked .other, s1)
                   | Option.some fs =>
                       match fs.find? (fun p => field == p.1) with
                       | Option.some pr => finishInfer e pr.2 s1
                       | Option.none =>
                           let r := addDiagnostic env e
                             ("Cannot access field \"" ++ field ++ "\" for type \"" ++
                               displayTy env receiverTy ++ "\"") s1
                           finishInfer e r.1 r.2)
        | .index lhs idx =>
            (match inferExpr fuel env lhs s with
             | (.panicked p, s1) => (.panicked p, s1)
             | (.ok lhsTy, s1) =>
                 match inferExpr fuel env idx s1 with
                 | (.panicked p, s2) => (.panicked p, s2)
                 | (.ok indexTy, s2) =>
                     let cannotIndex := fun (receiver : String) (st : St) =>
                       let r := addDiagnostic env lhs
                         ("Cannot index " ++ receiver ++ " with type \"" ++
                           displayTyAlt env indexTy ++ "\"") st
                       finishInfer e r.1 r.2
                     match lhsTy with
                     | .list t =>
                         if assignTys indexTy .int then finishInfer e t s2
                         else cannotIndex "list" s2
                     | .dict keyTy valueTy =>
                         if assignTys indexTy keyTy then finishInfer e valueTy s2
                         else cannotIndex "dict" s2
                     | .string =>
                         if assignTys indexTy .int then finishInfer e .string s2
                         else cannotIndex "string" s2
                     | .bytes =>
                         if assignTys indexTy .int then finishInfer e .int s2
                         else cannotIndex "bytes" s2
                     | .any => finishInfer e .unknown s2
                     | .unknown => finishInfer e .unknown s2
                     | .unbound => finishInfer e .unknown s2
                     | _ =>
                         let r := addDiagnostic env lhs
                           ("Type \"" ++ displayTyAlt env lhsTy ++ "\" is not indexable") s2
                         finishInfer e r.1 r.2)
        | .call callee args =>
            (match inferExpr fuel env callee s with
             | (.panicked p, s1) => (.panicked p, s1)
             | (.ok calleeTy, s1) =>
                 match inferCallArgs fuel env args s1 with
                 | (.panicked p, s2) => (.panicked p, s2)
                 | (.ok argsWithTy, s2) =>
                     match calleeTy with
                     | .function _ => finishInfer e .any s2
                     | .builtinFunction func subst =>
                         let slots := buildSlots (env.builtinFns func).params false
                         let r := processArgs env argsWithTy slots s2
                         (match validateSlots env e subst
                             ((env.builtinFns func).params.zip r.1) r.2 with
                          | (.panicked p, s4) => (.panicked p, s4)
                          | (.ok _, s4) =>
                              match (env.builtinFns func).retTy.substitute subst with
                              | Option.none => (.panicked .other, s4)
                              | Option.some ret => finishInfer e ret s4)
                     | .customFunction func =>
                         finishInfer e
                           ((resolveTypeRef env (env.customFns func).retTypeRef).getD .unknown) s2
                     | .unknown => finishInfer e .unknown s2
                     | .any => finishInfer e .unknown s2
                     | .unbound => finishInfer e .unknown s2
                     | _ =>
                         let r := addDiagnostic env e
                           ("Type \"" ++ displayTyAlt env calleeTy ++ "\" is not callable") s2
                         finishInfer e r.1 r.2)
        | .tuple es =>
            (match inferExprTys fuel env es s with
             | (.panicked p, s1) => (.panicked p, s1)
             | (.ok tys, s1) => finishInfer e (.tuple tys) s1)
        | _ => finishInfer e .any s
termination_by structural fuel _ _ _ => fuel

/-- `TyCtxt::get_common_type`: infer the first element, then check the rest
against it (short-circuiting on the first mismatch, like `Iterator::all`);
empty input or a mismatch yields the default. -/
def getCommonType : Nat → Env → List Nat → TyKind → St → Outcome TyKind × St
  | 0, _, _, _, s => (.panicked .other, s)
  | fuel + 1, env, es, dflt, s =>
    match es with
    | [] => (.ok dflt, s)
    | first :: rest =>
        match inferExpr fuel env first s with
        | (.panicked p, s1) => (.panicked p, s1)
        | (.ok firstTy, s1) => getCommonTypeLoop fuel env rest firstTy dflt s1
termination_by structural fuel _ _ _ _ => fuel

/-- The `all`-loop of `get_common_type`. -/
def getCommonTypeLoop : Nat → Env → List Nat → TyKind → TyKind → St → Outcome TyKind × St
  | 0, _, _, _, _, s => (.panicked .other, s)
  | fuel + 1, env, es, firstTy, dflt, s =>
    match es with
    | [] => (.ok firstTy, s)
    | e :: rest =>
        match inferExpr fuel env e s with
        | (.panicked p, s1) => (.panicked p, s1)
        | (.ok ty, s1) =>
            if ty == firstTy then getCommonTypeLoop fuel env rest firstTy dflt s1
            else (.ok dflt, s1)
termination_by structural fuel _ _ _ _ _ => fuel

/-- Inference of each element of a tuple literal (`exprs.iter().map(infer)`). -/
def inferExprTys : Nat → Env → List Nat → St → Outcome (List TyKind) × St
  | 0, _, _, s => (.panicked .other, s)
  | fuel + 1, env, es, s =>
    match es with
    | [] => (.ok [], s)
    | e :: rest =>
        match inferExpr fuel env e s with
        | (.panicked p, s1) => (.panicked p, s1)
        | (.ok ty, s1) =>
            match inferExprTys fuel env rest s1 with
            | (.panicked p, s2) => (.panicked p, s2)
            | (.ok tys, s2) => (.ok (ty :: tys), s2)
termination_by structural fuel _ _ _ => fuel

/-- The `args_with_ty` collection of the `Call` arm: infer every argument
expression, pairing it with its argument. -/
def inferCallArgs : Nat → Env → List Argument → St → Outcome (List (Argument × TyKind)) × St
  | 0, _, _, s => (.panicked .other, s)
  | fuel + 1, env, args, s =>
    match args with
    | [] => (.ok [], s)
    | arg :: rest =>
        match inferExpr fuel env arg.expr s with
        | (.panicked p, s1) => (.panicked p, s1)
        | (.ok ty, s1) =>
            match inferCallArgs fuel env rest s1 with
            | (.panicked p, s2) => (.panicked p, s2)
            | (.ok pairs, s2) => (.ok ((arg, ty) :: pairs), s2)
termination_by structural fuel _ _ _ => fuel

/-- `TyCtxt::infer_unary_expr`. -/
def inferUnaryExpr : Nat → Env → Nat → Nat → UnaryOp → St → Outcome TyKind × St
  | 0, _, _, _, _, s => (.panicked .other, s)
  | fuel + 1, env, parent, opExpr, op, s =>
    match inferExpr fuel env opExpr s with
    | (.panicked p, s1) => (.panicked p, s1)
    | (.ok ty, s1) =>
        if ty.isAny then (.ok .any, s1)
        else if ty.isUnknownOrUnbound then (.ok .unknown, s1)
        else
          let unknownDiag := fun (st : St) =>
            let r := addDiagnostic env parent
              ("Operator \"" ++ op.display ++ "\" is not supported for type \"" ++
                displayTy env ty ++ "\"") st
            ((Outcome.ok r.1 : Outcome TyKind), r.2)
          match op with
          | .plus =>
              (match ty with
               | .int => (.ok .int, s1)
               | .float => (.ok .float, s1)
               | _ => unknownDiag s1)
          | .minus =>
              (match ty with
               | .int => (.ok .int, s1)
               | .float => (.ok .float, s1)
               | _ => unknownDiag s1)
          | .inv =>
              (match ty with
               | .int => (.ok .int, s1)
               | _ => unknownDiag s1)
          | .not => (.ok .bool, s1)
termination_by structural fuel _ _ _ _ _ => fuel

/-- `TyCtxt::infer_binary_expr`. -/
def inferBinaryExpr : Nat → Env → Nat → Nat → Nat → BinaryOp → St → Outcome TyKind × St
  | 0, _, _, _, _, _, s => (.panicked .other, s)
  | fuel + 1, env, parent, lhsExpr, rhsExpr, op, s =>
    match inferExpr fuel env lhsExpr s with
    | (.panicked p, s1) => (.panicked p, s1)
    | (.ok lhsTy, s1) =>
        match inferExpr fuel env rhsExpr s1 with
        | (.panicked p, s2) => (.panicked p, s2)
        | (.ok rhsTy, s2) =>
            if lhsTy == TyKind.any || rhsTy == TyKind.any then (.ok .any, s2)
            else
              let unknownDiag := fun (st : St) =>
                let r := addDiagnostic env parent
                  ("Operator \"" ++ op.display ++ "\" not supported for types \"" ++
                    displayTy env lhsTy ++ "\" and \"" ++ displayTy env rhsTy ++ "\"") st
                ((Outcome.ok r.1 : Outcome TyKind), r.2)
              match op with
              | .arith aop =>
                  (match lhsTy, rhsTy with
                   | .string, .string =>
                       if aop == ArithOp.add then (.ok .string, s2) else unknownDiag s2
                   | .int, .int => (.ok .int, s2)
                   | .float, .int => (.ok .float, s2)
                   | .int, .float => (.ok .float, s2)
                   | .float, .float => (.ok .float, s2)
                   | _, _ => unknownDiag s2)
              | .bitwise =>
                  (match lhsTy, rhsTy with
                   | .int, .int => (.ok .int, s2)
                   | _, _ => unknownDiag s2)
              | _ => (.ok .bool, s2)
termination_by structural fuel _ _ _ _ _ _ => fuel

/-- `TyCtxt::infer_source_expr_assign`: find the syntactic parent of the
source expression, infer the source (normalizing `Unbound` to `Unknown`), and
drive the assignment of the result to the parent's targets. -/
def inferSourceExprAssign : Nat → Env → Nat → St → Outcome Unit × St
  | 0, _, _, s => (.panicked .other, s)
  | fuel + 1, env, source, s =>
    match env.parentOf source with
    | Option.none => (.ok (), s)
    | Option.some parent =>
        match inferExpr fuel env source s with
        | (.panicked p, s1) => (.panicked p, s1)
        | (.ok ty0, s1) =>
            let sourceTy := if ty0 == TyKind.unbound then TyKind.unknown else ty0
            match parent with
            | .assignStmt lhsOpt =>
                (match lhsOpt with
                 | Option.some lhs => assignExprSourceTy fuel env lhs lhs sourceTy s1
                 | Option.none => (.ok (), s1))
            | .forParent targets =>
                (match sourceTy with
                 | .list t => assignForTargets fuel env source targets t s1
                 | .tuple _ => assignForTargets fuel env source targets .any s1
                 | .any => assignForTargets fuel env source targets .any s1
                 | .range => assignForTargets fuel env source targets .int s1
                 | _ =>
                     let r := addDiagnostic env source
                       ("Type \"" ++ displayTy env sourceTy ++ "\" is not iterable") s1
                     assignUnknownList fuel env targets r.2)
            | .other => (.ok (), s1)
termination_by structural fuel _ _ _ => fuel

/-- The tail of the `for`-target handling: a single target receives the
element type directly, several targets destructure it. -/
def assignForTargets : Nat → Env → Nat → List Nat → TyKind → St → Outcome Unit × St
  | 0, _, _, _, _, s => (.panicked .other, s)
  | fuel + 1, env, source, targets, subTy, s =>
    match targets with
    | [t] => assignExprSourceTy fuel env t t subTy s
    | _ => assignExprsSourceTy fuel env source targets subTy s

/-- `TyCtxt::assign_expr_source_ty`: a name records the type; lists, tuples
and parens destructure; anything else is ignored. -/
def assignExprSourceTy : Nat → Env → Nat → Nat → TyKind → St → Outcome Unit × St
  | 0, _, _, _, _, s => (.panicked .other, s)
  | fuel + 1, env, root, e, sourceTy, s =>
    match env.module.expr e with
    | .name _ => (.ok (), (setExprType e sourceTy s).2)
    | .list es => assignExprsSourceTy fuel env root es sourceTy s
    | .tuple es => assignExprsSourceTy fuel env root es sourceTy s
    | .paren inner => assignExprSourceTy fuel env root inner sourceTy s
    | _ => (.ok (), s)
termination_by structural fuel _ _ _ _ _ => fuel

/-- `TyCtxt::assign_exprs_source_ty`: distribute a list element type, match a
fixed tuple pairwise (diagnosing a size mismatch and zeroing excess
left-hand elements), distribute `Any`, or diagnose a non-iterable source. -/
def assignExprsSourceTy : Nat → Env → Nat → List Nat → TyKind → St → Outcome Unit × St
  | 0, _, _, _, _, s => (.panicked .other, s)
  | fuel + 1, env, root, es, sourceTy, s =>
    match sourceTy with
    | .list t => assignEach fuel env root es t s
    | .tuple tys =>
        (match assignPairs fuel env root (es.zip tys) s with
         | (.panicked p, s1) => (.panicked p, s1)
         | (.ok _, s1) =>
             if es.length ≠ tys.length then
               match
                 (if tys.length < es.length then
                    assignUnknownList fuel env (es.drop tys.length) s1
                  else (.ok (), s1)) with
               | (.panicked p, s2) => (.panicked p, s2)
               | (.ok _, s2) =>
                   (.ok (),
                     (addDiagnostic env root
                       ("Tuple size mismatch, " ++ toString es.length ++
                         " on left-hand side and " ++ toString tys.length ++
                         " on right-hand side") s2).2)
             else (.ok (), s1))
    | .any => assignEach fuel env root es .any s
    | _ =>
        let r := addDiagnostic env root
          ("Type \"" ++ displayTy env sourceTy ++ "\" is not iterable") s
        assignUnknownList fuel env es r.2
termination_by structural fuel _ _ _ _ _ => fuel

/-- Distribution of one element type over every left-hand element (the `list`
and `Any` arms of `assign_exprs_source_ty`). -/
def assignEach : Nat → Env → Nat → List Nat → TyKind → St → Outcome Unit × St
  | 0, _, _, _, _, s => (.panicked .other, s)
  | fuel + 1, env, root, es, t, s =>
    match es with
    | [] => (.ok (), s)
    | e :: rest =>
        match assignExprSourceTy fuel env root e t s with
        | (.panicked p, s1) => (.panicked p, s1)
        | (.ok _, s1) => assignEach fuel env root rest t s1
termination_by structural fuel _ _ _ _ _ => fuel

/-- The pairwise zip-loop of the tuple arm of `assign_exprs_source_ty`. -/
def assignPairs : Nat → Env → Nat → List (Nat × TyKind) → St → Outcome Unit × St
  | 0, _, _, _, s => (.panicked .other, s)
  | fuel + 1, env, root, pairs, s =>
    match pairs with
    | [] => (.ok (), s)
    | (e, ty) :: rest =>
        match assignExprSourceTy fuel env root e ty s with
        | (.panicked p, s1) => (.panicked p, s1)
        | (.ok _, s1) => assignPairs fuel env root rest s1
termination_by structural fuel _ _ _ _ => fuel

/-- `assign_expr_unknown_rec` over a list of expressions. -/
def assignUnknownList : Nat → Env → List Nat → St → Outcome Unit × St
  | 0, _, _, s => (.panicked .other, s)
  | fuel + 1, env, es, s =>
    match es with
    | [] => (.ok (), s)
    | e :: rest =>
        match assignExprUnknownRec fuel env e s with
        | (.panicked p, s1) => (.panicked p, s1)
        | (.ok _, s1) => assignUnknownList fuel env rest s1
termination_by structural fuel _ _ _ => fuel

/-- `TyCtxt::assign_expr_unknown_rec`: set the expression and all its
descendants to `Unknown`. -/
def assignExprUnknownRec : Nat → Env → Nat → St → Outcome Unit × St
  | 0, _, _, s => (.panicked .other, s)
  | fuel + 1, env, e, s =>
    assignUnknownList fuel env (env.module.expr e).childExprs (setExprType e .unknown s).2
termination_by structural fuel _ _ _ => fuel

end

/-! ## Code-flow graph construction (`def/codeflow.rs`) -/

/-- A HIR id key of `hir_to_flow_node` (`scope::ScopeHirId`). -/
inductive ScopeHirId where
  | moduleRoot
  | stmt (id : Nat)
  | expr (id : Nat)
deriving DecidableEq

/-- A code-flow node (`codeflow::FlowNode`). -/
inductive FlowNode where
  | start
  | assign (expr : Nat) (name : String) (executionScope : Nat) (source : Nat)
      (antecedent : Nat)
  | branch (antecedents : List Nat)
  | loop (antecedents : List Nat)
  | unreachable
deriving DecidableEq

/-- The lowering context (`codeflow::CodeFlowLowerCtx`): the arena of flow
nodes (allocation appends, so a `FlowNodeId` is a list index), the HIR map,
the current node, the pre-allocated unreachable node, and the `break` /
`continue` targets. -/
structure FlowCtx where
  flowNodes : List FlowNode
  hirToFlowNode : List (ScopeHirId × Nat)
  currNode : Nat
  unreachableNode : Nat
  currBreakTarget : Option Nat
  currContinueTarget : Option Nat

/-- `CodeFlowLowerCtx::new`: pre-allocates the unreachable and start nodes. -/
def FlowCtx.init : FlowCtx :=
  { flowNodes := [.unreachable, .start]
    hirToFlowNode := []
    currNode := 1
    unreachableNode := 0
    currBreakTarget := Option.none
    currContinueTarget := Option.none }

/-- `CodeFlowLowerCtx::new_flow_node`: arena allocation, returning the new id. -/
def FlowCtx.newFlowNode (ctx : FlowCtx) (data : FlowNode) : Nat × FlowCtx :=
  (ctx.flowNodes.length, { ctx with flowNodes := ctx.flowNodes ++ [data] })

/-- Record the flow node of a HIR id (`hir_to_flow_node.insert`); a later
insertion shadows an earlier one. -/
def FlowCtx.insertHir (ctx : FlowCtx) (hir : ScopeHirId) (node : Nat) : FlowCtx :=
  { ctx with hirToFlowNode := (hir, node) :: ctx.hirToFlowNode }

/-- `CodeFlowLowerCtx::push_antecedent`: appends an antecedent to a `Branch`
or `Loop` node unless it is the unreachable node or already present.  The
source's `unreachable!()` on any other node kind is modelled as a no-op. -/
def FlowCtx.pushAntecedent (ctx : FlowCtx) (this : Nat) (antecedent : Nat) : FlowCtx :=
  match ctx.flowNodes.get? this with
  | Option.some (.branch antecedents) =>
      if antecedent != ctx.unreachableNode && !(antecedents.contains antecedent) then
        { ctx with flowNodes := ctx.flowNodes.set this (.branch (antecedents ++ [antecedent])) }
      else ctx
  | Option.some (.loop antecedents) =>
      if antecedent != ctx.unreachableNode && !(antecedents.contains antecedent) then
        { ctx with flowNodes := ctx.flowNodes.set this (.loop (antecedents ++ [antecedent])) }
      else ctx
  | _ => ctx

/-- The execution-scope query used when allocating an `Assign` node
(`Scopes::execution_scope_for_hir_id`).  The scope builder is not under
`src/`; it is modelled from the spec as an opaque total map. -/
structure ScopesEnv where
  execScope : Nat → Nat

mutual

/-- `CodeFlowLowerCtx::lower_stmts`: lower each statement, stopping at the
first one that leaves the current node unreachable. -/
def lowerStmts : Nat → HirModule → ScopesEnv → List Nat → FlowCtx → FlowCtx
  | 0, _, _, _, ctx => ctx
  | fuel + 1, m, sc, stmts, ctx =>
    match stmts with
    | [] => ctx
    | st :: rest =>
        let ctx1 := lowerStmt fuel m sc st ctx
        if ctx1.currNode == ctx1.unreachableNode then ctx1
        else lowerStmts fuel m sc rest ctx1
termination_by structural fuel _ _ _ _ => fuel

/-- `CodeFlowLowerCtx::lower_stmt`. -/
def lowerStmt : Nat → HirModule → ScopesEnv → Nat → FlowCtx → FlowCtx
  | 0, _, _, _, ctx => ctx
  | fuel + 1, m, sc, st, ctx =>
    match m.stmt st with
    | .assign lhs rhs =>
        let ctx1 := lowerAssignmentTarget fuel m sc lhs rhs ctx
        ctx1.insertHir (.stmt st) ctx1.currNode
    | .defStmt stmts =>
        -- `with_new_start_node`: lower the body from a fresh start node,
        -- record the body's final node for the statement, restore the current
        -- node, then record it again (the later insertion shadows).
        let saved := ctx.currNode
        let r := ctx.newFlowNode .start
        let ctx1 := lowerStmts fuel m sc stmts { r.2 with currNode := r.1 }
        let ctx2 := ctx1.insertHir (.stmt st) ctx1.currNode
        let ctx3 := { ctx2 with currNode := saved }
        ctx3.insertHir (.stmt st) ctx3.currNode
    | .ifStmt test ifStmts elifOrElse =>
        let ctx1 := lowerExpr fuel m sc test ctx
        let preIfNode := ctx1.currNode
        let r := ctx1.newFlowNode (.branch [])
        let postIfNode := r.1
        let ctx2 := lowerStmts fuel m sc ifStmts r.2
        let ctx3 := ctx2.pushAntecedent postIfNode ctx2.currNode
        let ctx4 :=
          match elifOrElse with
          | Option.some (Sum.inl elifStmt) =>
              let c := lowerStmt fuel m sc elifStmt { ctx3 with currNode := preIfNode }
              c.pushAntecedent postIfNode c.currNode
          | Option.some (Sum.inr elseStmts) =>
              let c := lowerStmts fuel m sc elseStmts { ctx3 with currNode := preIfNode }
              c.pushAntecedent postIfNode c.currNode
          | Option.none => ctx3.pushAntecedent postIfNode preIfNode
        { ctx4 with currNode := postIfNode }
    | .returnStmt (Option.some e) => lowerExpr fuel m sc e ctx
    | .exprStmt e => lowerExpr fuel m sc e ctx
    | .forStmt iterable targets stmts =>
        let ctx1 := lowerAssignmentTargets fuel m sc targets iterable ctx
        let r1 := ctx1.newFlowNode (.loop [])
        let preForNode := r1.1
        let r2 := r1.2.newFlowNode (.branch [])
        let postForNode := r2.1
        let prevBreakTarget := r2.2.currBreakTarget
        let prevContinueTarget := r2.2.currContinueTarget
        let ctx2 := { r2.2 with currBreakTarget := Option.some postForNode,
                                currContinueTarget := Option.some preForNode }
        let ctx3 := ctx2.pushAntecedent preForNode ctx2.currNode
        let ctx4 := lowerStmts fuel m sc stmts { ctx3 with currNode := preForNode }
        let ctx5 := ctx4.pushAntecedent preForNode ctx4.currNode
        let ctx6 := ctx5.pushAntecedent postForNode preForNode
        { ctx6 with currNode := postForNode, currBreakTarget := prevBreakTarget,
                    currContinueTarget := prevContinueTarget }
    | .continueStmt =>
        let ctx1 :=
          match ctx.currContinueTarget with
          | Option.some target => ctx.pushAntecedent target ctx.currNode
          | Option.none => ctx
        { ctx1 with currNode := ctx1.unreachableNode }
    | .breakStmt =>
        let ctx1 :=
          match ctx.currBreakTarget with
          | Option.some target => ctx.pushAntecedent target ctx.currNode
          | Option.none => ctx
        { ctx1 with currNode := ctx1.unreachableNode }
    | _ => ctx
termination_by structural fuel _ _ _ _ => fuel

/-- `CodeFlowLowerCtx::lower_expr`: names record the current flow node,
comprehensions lower their clauses before their body, everything else walks
its children. -/
def lowerExpr : Nat → HirModule → ScopesEnv → Nat → FlowCtx → FlowCtx
  | 0, _, _, _, ctx => ctx
  | fuel + 1, m, sc, e, ctx =>
    match m.expr e with
    | .name _ => ctx.insertHir (.expr e) ctx.currNode
    | .dictComp entry compClauses =>
        let ctx1 := lowerCompClauses fuel m sc compClauses ctx
        let ctx2 := lowerExpr fuel m sc entry.key ctx1
        lowerExpr fuel m sc entry.value ctx2
    | .listComp body compClauses =>
        let ctx1 := lowerCompClauses fuel m sc compClauses ctx
        lowerExpr fuel m sc body ctx1
    | other => lowerExprList fuel m sc other.childExprs ctx
termination_by structural fuel _ _ _ _ => fuel

/-- `walk_child_exprs` fallback of `lower_expr`, over the list of children. -/
def lowerExprList : Nat → HirModule → ScopesEnv → List Nat → FlowCtx → FlowCtx
  | 0, _, _, _, ctx => ctx
  | fuel + 1, m, sc, es, ctx =>
    match es with
    | [] => ctx
    | e :: rest => lowerExprList fuel m sc rest (lowerExpr fuel m sc e ctx)
termination_by structural fuel _ _ _ _ => fuel

/-- `CodeFlowLowerCtx::lower_assignment_target`: lower the source, then
allocate an `Assign` node per name leaf (parens pass through, tuples and
lists recurse over their elements, any other target only walks children). -/
def lowerAssignmentTarget : Nat → HirModule → ScopesEnv → Nat → Nat → FlowCtx → FlowCtx
  | 0, _, _, _, _, ctx => ctx
  | fuel + 1, m, sc, e, source, ctx =>
    let ctx0 := lowerExpr fuel m sc source ctx
    match m.expr e with
    | .name nm =>
        let r := ctx0.newFlowNode
          (.assign e nm (sc.execScope e) source ctx0.currNode)
        let ctx1 := { r.2 with currNode := r.1 }
        ctx1.insertHir (.expr e) ctx1.currNode
    | .paren inner => lowerAssignmentTarget fuel m sc inner source ctx0
    | .tuple es => lowerAssignmentTargets fuel m sc es source ctx0
    | .list es => lowerAssignmentTargets fuel m sc es source ctx0
    | other => lowerExprList fuel m sc other.childExprs ctx0
termination_by structural fuel _ _ _ _ _ => fuel

/-- `lower_assignment_target` over a list of targets sharing one source. -/
def lowerAssignmentTargets : Nat → HirModule → ScopesEnv → List Nat → Nat → FlowCtx → FlowCtx
  | 0, _, _, _, _, ctx => ctx
  | fuel + 1, m, sc, es, source, ctx =>
    match es with
    | [] => ctx
    | e :: rest =>
        lowerAssignmentTargets fuel m sc rest source
          (lowerAssignmentTarget fuel m sc e source ctx)
termination_by structural fuel _ _ _ _ _ => fuel

/-- `CodeFlowLowerCtx::lower_comp_clauses`. -/
def lowerCompClauses : Nat → HirModule → ScopesEnv → List CompClause → FlowCtx → FlowCtx
  | 0, _, _, _, ctx => ctx
  | fuel + 1, m, sc, clauses, ctx =>
    match clauses with
    | [] => ctx
    | .forClause iterable targets :: rest =>
        let ctx1 := lowerExpr fuel m sc iterable ctx
        let ctx2 := lowerAssignmentTargets fuel m sc targets iterable ctx1
        lowerCompClauses fuel m sc rest ctx2
    | .ifClause test :: rest =>
        lowerCompClauses fuel m sc rest (lowerExpr fuel m sc test ctx)
termination_by structural fuel _ _ _ _ => fuel

end

/-- The produced graph (`codeflow::CodeFlowGraph`). -/
structure CodeFlowGraph where
  flowNodes : List FlowNode
  hirToFlowNode : List (ScopeHirId × Nat)

/-- `lower_to_code_flow_graph`: lower the top-level statements from a fresh
context and record the module's final flow node. -/
def lowerToCodeFlowGraph (fuel : Nat) (m : HirModule) (sc : ScopesEnv) : CodeFlowGraph :=
  let ctx := lowerStmts fuel m sc m.topLevel FlowCtx.init
  let ctx1 := ctx.insertHir .moduleRoot ctx.currNode
  { flowNodes := ctx1.flowNodes, hirToFlowNode := ctx1.hirToFlowNode }

/-! ## Check-mode dialect inference (`starpls/src/check.rs`) -/

/-- The dialect-selection match of `run_check`, as written in the source: it
keys on the path's extension and, for extensionless paths, on the file name.
`Option.none` models the `return Err(...)` path (immediate error and non-zero
exit).  Note the file-name pattern is the single literal string
`"WORKSPACE | BUILD"`. -/
def dialectForPath (extension : Option String) (fileName : Option String) : Option Dialect :=
  match extension with
  | Option.some "bzl" => Option.some .bazel
  | Option.some "bazel" => Option.some .bazel
  | Option.some "sky" => Option.some .standard
  | Option.some "star" => Option.some .standard
  | Option.none =>
      if fileName == Option.some "WORKSPACE | BUILD" then Option.some .bazel
      else Option.none
  | _ => Option.none

/-- Modelled from the spec: the dialect table the spec documents (§6, and §9
which flags the source's embedded-space pattern as a typo): extensionless
files named `WORKSPACE` or named `BUILD` take the Bazel dialect. -/
def dialectForPathSpec (extension : Option String) (fileName : Option String) :
    Option Dialect :=
  match extension with
  | Option.some "bzl" => Option.some .bazel
  | Option.some "bazel" => Option.some .bazel
  | Option.some "sky" => Option.some .standard
  | Option.some "star" => Option.some .standard
  | Option.none =>
      if fileName == Option.some "WORKSPACE" || fileName == Option.some "BUILD" then
        Option.some .bazel
      else Option.none
  | _ => Option.none

/-! ## Sample environments for concrete runs -/

/-- A minimal environment over a given expression arena: nothing resolves, no
source-map parents, the range of expression `e` is the token `e`, and the
catalogs are empty. -/
def sampleEnv (exprs : List Expr) : Env :=
  { fileId := 0
    module := ⟨exprs, [], []⟩
    resolveName := fun _ _ => Option.none
    parentOf := fun _ => Option.none
    exprRange := fun e => Option.some e
    paramRange := fun _ => Option.none
    params := []
    builtinFns := fun _ => ⟨"fn", 0, [], .none⟩
    customFns := fun _ => ⟨"cfn", .unknown⟩
    customTypes := fun _ => ⟨"ct", [], []⟩
    customTypeByName := fun _ => Option.none
    stringFields := []
    bytesFields := []
    listFields := []
    dictFields := []
    displayUserFn := fun _ => "function"
    displayBuiltinFn := fun _ _ => "builtin"
    displayCustomFn := fun _ => "custom" }

/-- The engine state at the start of a run: flag lowered, empty context. -/
def initSt : St := ⟨false, default⟩

/-! ## Invariant definitions and sample environments for the claims -/

/-- An environment in which the single `Name` expression resolves to built-in
function `0`, whose interned data declares two bound variables. -/
def envBuiltinTwoVars : Env :=
  { sampleEnv [.name "f"] with
    resolveName := fun _ _ => Option.some [.builtinFunction 0]
    builtinFns := fun _ => ⟨"f", 2, [.positional (.boundVar 0) true], .boundVar 0⟩ }

/-- An environment with a user-defined function `f` (declaration
`Function { 0 }`) and the call `f("x")`. -/
def envUserFnCall : Env :=
  { sampleEnv [.name "f", .literal (.string "x"), .call 0 [.simple 1]] with
    resolveName := fun _ nm => if nm == "f" then Option.some [.function 0] else Option.none }

/-- A module with the nested assignment pattern `a, (b, c)`: expressions
`0`–`2` are the names, `3` is the inner pattern `(b, c)`, `4` the outer
pattern. -/
def envNestedPattern : Env :=
  sampleEnv [.name "a", .name "b", .name "c", .tuple [1, 2], .tuple [0, 3]]

/-- A module with the flat assignment pattern `x, y`. -/
def envTwoNames : Env := sampleEnv [.name "x", .name "y"]

/-- The antecedent invariant over a flow-node arena with designated
unreachable node `u`: `u` really is the unreachable node, it is the only one,
and every `Branch` or `Loop` node has duplicate-free antecedents that never
include `u`. -/
def FlowInv (nodes : List FlowNode) (u : Nat) : Prop :=
  nodes.get? u = some .unreachable ∧
  (∀ i, nodes.get? i = some .unreachable → i = u) ∧
  (∀ i ants, nodes.get? i = some (.branch ants) → ants.Nodup ∧ u ∉ ants) ∧
  (∀ i ants, nodes.get? i = some (.loop ants) → ants.Nodup ∧ u ∉ ants)

/-- The invariant of a lowering context. -/
def FlowCtx.Inv (ctx : FlowCtx) : Prop :=
  FlowInv ctx.flowNodes ctx.unreachableNode

/-- Every accumulated diagnostic has severity `Error`. -/
def DiagsAllError (s : St) : Prop :=
  ∀ dg ∈ s.cx.diagnostics, dg.severity = Severity.error

/-- The severity-purity invariant for every engine function at a given fuel:
a state whose accumulated diagnostics are all `Error` keeps that property
through the call (the engine only ever appends `Error` diagnostics). -/
structure DiagsEngineInv (fuel : Nat) : Prop where
  inferE : ∀ env e s, DiagsAllError s → DiagsAllError (inferExpr fuel env e s).2
  common : ∀ env es dflt s, DiagsAllError s →
    DiagsAllError (getCommonType fuel env es dflt s).2
  commonLoop : ∀ env es firstTy dflt s, DiagsAllError s →
    DiagsAllError (getCommonTypeLoop fuel env es firstTy dflt s).2
  exprTys : ∀ env es s, DiagsAllError s → DiagsAllError (inferExprTys fuel env es s).2
  callArgs : ∀ env args s, DiagsAllError s →
    DiagsAllError (inferCallArgs fuel env args s).2
  unaryE : ∀ env parent opExpr op s, DiagsAllError s →
    DiagsAllError (inferUnaryExpr fuel env parent opExpr op s).2
  binaryE : ∀ env parent lhs rhs op s, DiagsAllError s →
    DiagsAllError (inferBinaryExpr fuel env parent lhs rhs op s).2
  sourceAssign : ∀ env source s, DiagsAllError s →
    DiagsAllError (inferSourceExprAssign fuel env source s).2
  forTargets : ∀ env source targets subTy s, DiagsAllError s →
    DiagsAllError (assignForTargets fuel env source targets subTy s).2
  exprSrc : ∀ env root e sourceTy s, DiagsAllError s →
    DiagsAllError (assignExprSourceTy fuel env root e sourceTy s).2
  exprsSrc : ∀ env root es sourceTy s, DiagsAllError s →
    DiagsAllError (assignExprsSourceTy fuel env root es sourceTy s).2
  eachTy : ∀ env root es t s, DiagsAllError s →
    DiagsAllError (assignEach fuel env root es t s).2
  pairsTy : ∀ env root prs s, DiagsAllError s →
    DiagsAllError (assignPairs fuel env root prs s).2
  unknownL : ∀ env es s, DiagsAllError s →
    DiagsAllError (assignUnknownList fuel env es s).2
  unknownRec : ∀ env e s, DiagsAllError s →
    DiagsAllError (assignExprUnknownRec fuel env e s).2


/-- An environment realising the source program `((c.f,), c) = (1, x)` with
`x` of type `Any`: expression `5` is the left-hand dot `c.f`, whose receiver
use `4` resolves to the pattern name `3` declared by the assignment whose
right-hand side is the tuple `2`. -/
def envDotNonIdem : Env :=
  { sampleEnv
      [.literal (.int 1),
       .lambda [] 0,
       .tuple [0, 1],
       .name "c",
       .name "c",
       .dot 4 "f",
       .tuple [5],
       .tuple [6, 3]]
    with
    resolveName := fun e nm =>
      if e == 4 && nm == "c" then Option.some [.variable 3 (Option.some 2)]
      else Option.none
    parentOf := fun e =>
      if e == 2 then Option.some (.assignStmt (Option.some 7)) else Option.none }

/-! ## C9: check-mode dialect inference -/

/-- C9: the check-mode CLI is specified to assign the Bazel dialect to
extensionless files named `WORKSPACE` or `BUILD`, but the source's pattern is
the single string literal `"WORKSPACE | BUILD"`: a file actually named
`WORKSPACE` (or `BUILD`) falls through to the error path, while only a file
literally named `WORKSPACE | BUILD` gets the Bazel dialect.  The spec's
design notes (§9) flag this embedded-space pattern as a typo in the source,
so the claim describes the intent and the code is the slip. -/
theorem check_dialect_workspace_build_bug :
    dialectForPath Option.none (Option.some "WORKSPACE") = Option.none ∧
    dialectForPath Option.none (Option.some "BUILD") = Option.none ∧
    dialectForPath Option.none (Option.some "WORKSPACE | BUILD") = Option.some .bazel ∧
    dialectForPathSpec Option.none (Option.some "WORKSPACE") = Option.some .bazel ∧
    dialectForPathSpec Option.none (Option.some "BUILD") = Option.some .bazel ∧
    dialectForPath (Option.some "bzl") Option.none = Option.some .bazel ∧
    dialectForPath (Option.some "bazel") Option.none = Option.some .bazel ∧
    dialectForPath (Option.some "sky") Option.none = Option.some .standard ∧
    dialectForPath (Option.some "star") Option.none = Option.some .standard ∧
    dialectForPath (Option.some "txt") Option.none = Option.none := by
  decide

/-! ## C5: unary logical not -/

/-- C5 counterexample: a logical-not whose operand infers to `Any` (here a
lambda, which the catch-all arm types as `Any`) yields `Any`, not `Bool`: the
`is_any` early return of `infer_unary_expr` precedes the operator match. -/
theorem infer_unary_not_any_counterexample :
    (inferExpr 9
        (sampleEnv [.lambda [] 1, .literal (.int 1), .unary (Option.some .not) 0])
        2 initSt).1 = .ok .any ∧
      TyKind.any ≠ TyKind.bool := by
  decide

/-- C5 (amended): a unary logical-not expression infers to `Bool` whenever its
operand's inferred type is not `Any`, `Unknown` or `Unbound`; operands of
those kinds short-circuit to `Any` resp. `Unknown` before the operator is
examined. -/
theorem infer_unary_not_bool (fuel : Nat) (env : Env) (e opExpr : Nat) (s s1 : St)
    (ty : TyKind)
    (he : env.module.expr e = .unary (Option.some .not) opExpr)
    (hcache : lookupTy s.cx.typeOfExpr e = Option.none)
    (hflag : s.cancelled = false)
    (hop : inferExpr fuel env opExpr s = (.ok ty, s1))
    (hany : ty.isAny = false)
    (hunk : ty.isUnknownOrUnbound = false) :
    inferExpr (fuel + 2) env e s = (.ok .bool, (setExprType e .bool s1).2) := by
  have hu : inferUnaryExpr (fuel + 1) env e opExpr .not s = (.ok .bool, s1) := by
    simp [inferUnaryExpr, hop, hany, hunk]
  show inferExpr ((fuel + 1) + 1) env e s = _
  simp [inferExpr, hcache, hflag, he, hu, finishInfer, setExprType]

/-- C5 witness: a concrete logical-not over an `Int` operand. -/
theorem infer_unary_not_bool_witness :
    inferExpr 3 (sampleEnv [.literal (.int 7), .unary (Option.some .not) 0]) 1 initSt =
      (.ok .bool,
        (setExprType 1 .bool ⟨false, ⟨[], [], [(0, .int)]⟩⟩).2) :=
  infer_unary_not_bool 1
    (sampleEnv [.literal (.int 7), .unary (Option.some .not) 0]) 1 0
    initSt ⟨false, ⟨[], [], [(0, .int)]⟩⟩ .int
    (by decide) (by decide) (by decide) (by decide) (by decide) (by decide)

/-! ## C4: name resolving to a built-in function -/

/-- C4 counterexample: the source passes `Substitution::new_identity(0)` —
not the function's own binder count — so a built-in function with two bound
variables is typed with the empty substitution, which differs from the
identity substitution over its binders. -/
theorem infer_name_builtin_identity_counterexample :
    (inferExpr 5 envBuiltinTwoVars 0 initSt).1 =
        .ok (.builtinFunction 0 []) ∧
      Substitution.newIdentity ((envBuiltinTwoVars.builtinFns 0).numVars) =
        [.boundVar 0, .boundVar 1] ∧
      (TyKind.builtinFunction 0 [] : TyKind) ≠
        .builtinFunction 0 (Substitution.newIdentity ((envBuiltinTwoVars.builtinFns 0).numVars)) := by
  decide

/-- C4 (amended): a `Name` expression resolving to a built-in function is
typed `BuiltinFunction(id, new_identity(0))`, i.e. with the empty
substitution, regardless of the function's number of bound variables. -/
theorem infer_name_builtin_function (fuel : Nat) (env : Env) (e : Nat) (nm : String)
    (f : Nat) (s : St)
    (he : env.module.expr e = .name nm)
    (hres : (env.resolveName e nm).bind List.getLast? =
      Option.some (.builtinFunction f))
    (hcache : lookupTy s.cx.typeOfExpr e = Option.none)
    (hflag : s.cancelled = false) :
    inferExpr (fuel + 1) env e s =
      (.ok (.builtinFunction f (Substitution.newIdentity 0)),
        (setExprType e (.builtinFunction f (Substitution.newIdentity 0)) s).2) := by
  simp [inferExpr, hcache, hflag, he, hres, finishInfer, setExprType]

/-- C4 witness: the concrete environment above. -/
theorem infer_name_builtin_function_witness :
    inferExpr 5 envBuiltinTwoVars 0 initSt =
      (.ok (.builtinFunction 0 (Substitution.newIdentity 0)),
        (setExprType 0 (.builtinFunction 0 (Substitution.newIdentity 0)) initSt).2) :=
  infer_name_builtin_function 4 envBuiltinTwoVars 0 "f" 0 initSt
    (by decide) (by decide) (by decide) (by decide)

/-! ## C1: unresolved names -/

/-- C1: a `Name` expression at which resolution yields no visible declaration
is diagnosed with exactly one `"{name}" is not defined` error on the
expression's mapped range, and is typed (and cached) `Unbound`. -/
theorem infer_name_unresolved (fuel : Nat) (env : Env) (e : Nat) (nm : String)
    (s : St) (r : Nat)
    (he : env.module.expr e = .name nm)
    (hres : (env.resolveName e nm).bind List.getLast? = Option.none)
    (hcache : lookupTy s.cx.typeOfExpr e = Option.none)
    (hflag : s.cancelled = false)
    (hrange : env.exprRange e = Option.some r) :
    inferExpr (fuel + 1) env e s =
      (.ok .unbound,
        { cancelled := s.cancelled
          cx :=
            { diagnostics := s.cx.diagnostics ++
                [{ message := "\"" ++ nm ++ "\" is not defined", severity := .error,
                   range := { fileId := env.fileId, range := r } }]
              paramTys := s.cx.paramTys
              typeOfExpr := (e, .unbound) :: s.cx.typeOfExpr } }) := by
  simp [inferExpr, hcache, hflag, he, hres, hrange, addDiagnostic,
    addDiagnosticForRange, finishInfer, setExprType]

/-- C1 witness: an undefined name in the minimal environment. -/
theorem infer_name_unresolved_witness :
    inferExpr 1 (sampleEnv [.name "undefined_name"]) 0 initSt =
      (.ok .unbound,
        { cancelled := false
          cx :=
            { diagnostics :=
                [{ message := "\"undefined_name\" is not defined", severity := .error,
                   range := { fileId := 0, range := 0 } }]
              paramTys := []
              typeOfExpr := [(0, .unbound)] } }) :=
  infer_name_unresolved 0 (sampleEnv [.name "undefined_name"]) 0 "undefined_name"
    initSt 0 (by decide) (by decide) (by decide) (by decide) (by decide)

/-! ## C3: calls whose callee is a user-defined function -/

/-- C3: when the callee of a call expression infers to a user-defined
function, the call is typed `Any` and the dispatch performs no slot matching:
the final state is exactly the state after inferring the callee and the
arguments, plus the memo entry for the call itself — in particular no
diagnostic is added by the dispatch. -/
theorem infer_call_user_function (fuel : Nat) (env : Env) (e callee : Nat)
    (args : List Argument) (s s1 s2 : St) (f : Nat)
    (argsWithTy : List (Argument × TyKind))
    (he : env.module.expr e = .call callee args)
    (hcache : lookupTy s.cx.typeOfExpr e = Option.none)
    (hflag : s.cancelled = false)
    (hcallee : inferExpr fuel env callee s = (.ok (.function f), s1))
    (hargs : inferCallArgs fuel env args s1 = (.ok argsWithTy, s2)) :
    inferExpr (fuel + 1) env e s = (.ok .any, (setExprType e .any s2).2) ∧
      (setExprType e .any s2).2.cx.diagnostics = s2.cx.diagnostics := by
  constructor
  · simp [inferExpr, hcache, hflag, he, hcallee, hargs, finishInfer, setExprType]
  · simp [setExprType]

/-- C3 witness: the concrete call `f("x")` types as `Any` with no
diagnostics at all. -/
theorem infer_call_user_function_witness :
    (inferExpr 3 envUserFnCall 2 initSt = (.ok .any,
        (setExprType 2 .any ⟨false, ⟨[], [], [(1, .string), (0, .function 0)]⟩⟩).2) ∧
      (setExprType 2 .any ⟨false, ⟨[], [], [(1, .string), (0, .function 0)]⟩⟩).2.cx.diagnostics =
        (⟨false, ⟨[], [], [(1, .string), (0, .function 0)]⟩⟩ : St).cx.diagnostics) ∧
      (setExprType 2 .any ⟨false, ⟨[], [], [(1, .string), (0, .function 0)]⟩⟩).2.cx.diagnostics = [] :=
  ⟨infer_call_user_function 2 envUserFnCall 2 0 [.simple 1] initSt
      ⟨false, ⟨[], [], [(0, .function 0)]⟩⟩
      ⟨false, ⟨[], [], [(1, .string), (0, .function 0)]⟩⟩ 0
      [(.simple 1, .string)]
      (by decide) (by decide) (by decide) (by decide) (by decide),
    by decide⟩

/-! ## C7: cancellation -/

/-- C7 counterexample: `infer_expr` consults the memo table *before* polling
the cancellation flag, so an invocation on a cached expression returns the
cached type even while the flag is raised — it does not unwind. -/
theorem infer_cancellation_cache_hit_counterexample :
    inferExpr 9 (sampleEnv [.literal (.int 1)]) 0 ⟨true, ⟨[], [], [(0, .int)]⟩⟩ =
        (.ok .int, ⟨true, ⟨[], [], [(0, .int)]⟩⟩) ∧
      (Outcome.ok TyKind.int : Outcome TyKind) ≠ .panicked .typecheckCancelled := by
  decide

/-- C7 (amended): on a memo miss with the cancellation flag raised,
`infer_expr` unwinds with the `TypecheckCancelled` payload without touching
the state; `Cancelled::catch` converts that unwind into the recoverable
`Cancelled` error; and dropping the `CancelGuard` lowers the flag and leaves
the inference context empty (no diagnostics, no parameter types, no
expression types). -/
theorem infer_cancellation (fuel : Nat) (env : Env) (e : Nat) (s s2 : St)
    (hcache : lookupTy s.cx.typeOfExpr e = Option.none)
    (hflag : s.cancelled = true) :
    inferExpr (fuel + 1) env e s = (.panicked .typecheckCancelled, s) ∧
      Cancelled.catch (inferExpr (fuel + 1) env e s) = (.ok (.error .typecheck), s) ∧
      (cancelGuardDrop s2).cancelled = false ∧
      (cancelGuardDrop s2).cx.diagnostics = [] ∧
      (cancelGuardDrop s2).cx.paramTys = [] ∧
      (cancelGuardDrop s2).cx.typeOfExpr = [] := by
  have h1 : inferExpr (fuel + 1) env e s = (.panicked .typecheckCancelled, s) := by
    cases he : env.module.expr e <;> simp [inferExpr, hcache, hflag, he]
  refine ⟨h1, ?_, rfl, rfl, rfl, rfl⟩
  rw [h1]
  rfl

/-- C7 witness: a concrete cancelled run. -/
theorem infer_cancellation_witness :
    inferExpr 5 (sampleEnv [.literal (.int 1)]) 0 ⟨true, default⟩ =
        (.panicked .typecheckCancelled, ⟨true, default⟩) ∧
      Cancelled.catch (inferExpr 5 (sampleEnv [.literal (.int 1)]) 0 ⟨true, default⟩) =
        (.ok (.error .typecheck), ⟨true, default⟩) ∧
      (cancelGuardDrop ⟨true, ⟨[⟨"m", .error, ⟨0, 0⟩⟩], [(0, .int)], [(0, .int)]⟩⟩).cancelled = false ∧
      (cancelGuardDrop ⟨true, ⟨[⟨"m", .error, ⟨0, 0⟩⟩], [(0, .int)], [(0, .int)]⟩⟩).cx.diagnostics = [] ∧
      (cancelGuardDrop ⟨true, ⟨[⟨"m", .error, ⟨0, 0⟩⟩], [(0, .int)], [(0, .int)]⟩⟩).cx.paramTys = [] ∧
      (cancelGuardDrop ⟨true, ⟨[⟨"m", .error, ⟨0, 0⟩⟩], [(0, .int)], [(0, .int)]⟩⟩).cx.typeOfExpr = [] :=
  infer_cancellation 4 (sampleEnv [.literal (.int 1)]) 0 ⟨true, default⟩
    ⟨true, ⟨[⟨"m", .error, ⟨0, 0⟩⟩], [(0, .int)], [(0, .int)]⟩⟩
    (by decide) (by decide)

/-! ## C2: tuple destructuring -/

/-- Association-list lookup helper: a key absent from the first part looks up
in the second. -/
theorem lookup_append_right (k : Nat) (l1 l2 : List (Nat × TyKind))
    (h : ∀ p ∈ l1, p.1 ≠ k) :
    List.lookup k (l1 ++ l2) = List.lookup k l2 := by
  induction l1 with
  | nil => rfl
  | cons a rest ih =>
    have hk : (k == a.1) = false := by
      have := h a (List.mem_cons_self a rest)
      simp [Ne.symm this]
    simp only [List.cons_append, List.lookup, hk]
    exact ih fun p hp => h p (List.mem_cons_of_mem a hp)

/-- Association-list lookup helper: with pairwise distinct keys, a member's
key looks up its value. -/
theorem lookup_of_mem_of_nodup_keys (k : Nat) (v : TyKind) (l : List (Nat × TyKind))
    (hmem : (k, v) ∈ l) (hnodup : (l.map Prod.fst).Nodup) :
    List.lookup k l = some v := by
  induction l with
  | nil => cases hmem
  | cons a rest ih =>
    rcases List.mem_cons.mp hmem with h | h
    · cases h
      simp [List.lookup]
    · rw [List.map_cons] at hnodup
      have hnd := List.nodup_cons.mp hnodup
      have hkmem : k ∈ rest.map Prod.fst := List.mem_map_of_mem Prod.fst h
      have hka : (k == a.1) = false := by
        refine beq_eq_false_iff_ne.mpr fun hk => hnd.1 ?_
        exact hk ▸ hkmem
      simp only [List.lookup, hka]
      exact ih h hnd.2

/-- Keys of a zip are the prefix of the first list. -/
theorem map_fst_zip_eq_take (es : List Nat) (tys : List TyKind) :
    (es.zip tys).map Prod.fst = es.take tys.length := by
  induction es generalizing tys with
  | nil => simp
  | cons e rest ih =>
    cases tys with
    | nil => simp
    | cons t ts => simp [List.zip_cons_cons, ih]

/-- Association-list lookup helper: a hit in the first part wins. -/
theorem lookup_append_left (k : Nat) (v : TyKind) (l1 l2 : List (Nat × TyKind))
    (h : List.lookup k l1 = some v) :
    List.lookup k (l1 ++ l2) = some v := by
  induction l1 with
  | nil => cases h
  | cons a rest ih =>
    by_cases hk : (k == a.1) = true
    · simp only [List.lookup, hk] at h
      simp only [List.cons_append, List.lookup, hk]
      exact h
    · rw [Bool.not_eq_true] at hk
      simp only [List.lookup, hk] at h
      simp only [List.cons_append, List.lookup, hk]
      exact ih h

/-- `assign_expr_source_ty` on a name leaf just records the type. -/
theorem assignExprSourceTy_name (env : Env) (fuel root e : Nat) (ty : TyKind)
    (s : St) (nm : String) (he : env.module.expr e = .name nm) :
    assignExprSourceTy (fuel + 1) env root e ty s =
      (.ok (), { s with cx := { s.cx with typeOfExpr := (e, ty) :: s.cx.typeOfExpr } }) := by
  simp [assignExprSourceTy, he, setExprType]

/-- The pairwise zip-loop over name leaves records each pair in order. -/
theorem assignPairs_names (env : Env) (root : Nat) :
    ∀ (pairs : List (Nat × TyKind)) (fuel : Nat) (c : Bool) (d : List Diagnostic)
      (pt m : List (Nat × TyKind)),
      (∀ p ∈ pairs, ∃ nm, env.module.expr p.1 = Expr.name nm) →
      pairs.length < fuel →
      assignPairs fuel env root pairs ⟨c, ⟨d, pt, m⟩⟩ =
        (.ok (), ⟨c, ⟨d, pt, pairs.reverse ++ m⟩⟩)
  | [], fuel, c, d, pt, m, _, hf => by
      obtain ⟨f, rfl⟩ : ∃ f, fuel = f + 1 := ⟨fuel - 1, by omega⟩
      simp [assignPairs]
  | (e, ty) :: rest, fuel, c, d, pt, m, hnm, hf => by
      obtain ⟨f, rfl⟩ : ∃ f, fuel = f + 1 := ⟨fuel - 1, by omega⟩
      obtain ⟨g, rfl⟩ : ∃ g, f = g + 1 := ⟨f - 1, by simp at hf; omega⟩
      obtain ⟨nm, he⟩ := hnm (e, ty) (by simp)
      have h1 : assignExprSourceTy (g + 1) env root e ty ⟨c, ⟨d, pt, m⟩⟩ =
          (.ok (), ⟨c, ⟨d, pt, (e, ty) :: m⟩⟩) := by
        simp [assignExprSourceTy, he, setExprType]
      have h2 := assignPairs_names env root rest (g + 1) c d pt ((e, ty) :: m)
        (fun p hp => hnm p (List.mem_cons_of_mem _ hp)) (by simp at hf; omega)
      show assignPairs (g + 1 + 1) env root ((e, ty) :: rest) ⟨c, ⟨d, pt, m⟩⟩ = _
      rw [show assignPairs (g + 1 + 1) env root ((e, ty) :: rest) ⟨c, ⟨d, pt, m⟩⟩ =
        (match assignExprSourceTy (g + 1) env root e ty ⟨c, ⟨d, pt, m⟩⟩ with
         | (.panicked p, s1) => (.panicked p, s1)
         | (.ok _, s1) => assignPairs (g + 1) env root rest s1) from rfl]
      rw [h1]
      show assignPairs (g + 1) env root rest ⟨c, ⟨d, pt, (e, ty) :: m⟩⟩ = _
      rw [h2]
      simp

/-- `assign_expr_unknown_rec` over name leaves records `Unknown` for each. -/
theorem assignUnknownList_names (env : Env) :
    ∀ (es : List Nat) (fuel : Nat) (c : Bool) (d : List Diagnostic)
      (pt m : List (Nat × TyKind)),
      (∀ x ∈ es, ∃ nm, env.module.expr x = Expr.name nm) →
      es.length + 2 ≤ fuel →
      assignUnknownList fuel env es ⟨c, ⟨d, pt, m⟩⟩ =
        (.ok (), ⟨c, ⟨d, pt, (es.map fun x => (x, TyKind.unknown)).reverse ++ m⟩⟩)
  | [], fuel, c, d, pt, m, _, hf => by
      obtain ⟨f, rfl⟩ : ∃ f, fuel = f + 1 := ⟨fuel - 1, by omega⟩
      simp [assignUnknownList]
  | e :: rest, fuel, c, d, pt, m, hnm, hf => by
      obtain ⟨h, rfl⟩ : ∃ h, fuel = h + 3 := ⟨fuel - 3, by simp at hf; omega⟩
      obtain ⟨nm, he⟩ := hnm e (by simp)
      have h1 : assignExprUnknownRec (h + 2) env e ⟨c, ⟨d, pt, m⟩⟩ =
          (.ok (), ⟨c, ⟨d, pt, (e, TyKind.unknown) :: m⟩⟩) := by
        simp [assignExprUnknownRec, setExprType, he, Expr.childExprs, assignUnknownList]
      have h2 := assignUnknownList_names env rest (h + 2) c d pt ((e, TyKind.unknown) :: m)
        (fun x hx => hnm x (List.mem_cons_of_mem _ hx)) (by simp at hf; omega)
      show assignUnknownList (h + 2 + 1) env (e :: rest) ⟨c, ⟨d, pt, m⟩⟩ = _
      rw [show assignUnknownList (h + 2 + 1) env (e :: rest) ⟨c, ⟨d, pt, m⟩⟩ =
        (match assignExprUnknownRec (h + 2) env e ⟨c, ⟨d, pt, m⟩⟩ with
         | (.panicked p, s1) => (.panicked p, s1)
         | (.ok _, s1) => assignUnknownList (h + 2) env rest s1) from rfl]
      rw [h1]
      show assignUnknownList (h + 2) env rest ⟨c, ⟨d, pt, (e, TyKind.unknown) :: m⟩⟩ = _
      rw [h2]
      simp

/-- In the destructured memo table, a left-hand element matched pairwise looks
up its tuple element type. -/
theorem lookup_destructured_pair (es : List Nat) (tys : List TyKind)
    (m0 : List (Nat × TyKind)) (hnodup : es.Nodup) (i : Nat)
    (hi : i < es.length) (him : i < tys.length) :
    List.lookup es[i]
      ((((es.drop tys.length).map fun x => (x, TyKind.unknown)).reverse) ++
        ((es.zip tys).reverse ++ m0)) = some tys[i] := by
  have hzl : i < (es.zip tys).length := by simp [List.length_zip]; omega
  rw [lookup_append_right]
  · apply lookup_append_left
    apply lookup_of_mem_of_nodup_keys
    · rw [List.mem_reverse]
      have : (es.zip tys)[i] = (es[i], tys[i]) := List.getElem_zip
      exact this ▸ List.getElem_mem hzl
    · rw [List.map_reverse, map_fst_zip_eq_take]
      exact List.nodup_reverse.mpr (hnodup.sublist (List.take_sublist _ _))
  · intro p hp
    rw [List.mem_reverse, List.mem_map] at hp
    obtain ⟨x, hx, rfl⟩ := hp
    obtain ⟨j, hj, rfl⟩ := List.mem_iff_getElem.mp hx
    have hj2 : j < (es.drop tys.length).length := hj
    rw [List.getElem_drop]
    intro hEq
    have hij : tys.length + j = i := by
      have hb : tys.length + j < es.length := by simp at hj2; omega
      exact (hnodup.getElem_inj_iff).mp hEq
    omega

/-- In the destructured memo table, an excess left-hand element looks up
`Unknown`. -/
theorem lookup_destructured_excess (es : List Nat) (tys : List TyKind)
    (m0 : List (Nat × TyKind)) (hnodup : es.Nodup) (i : Nat)
    (hm : tys.length ≤ i) (hi : i < es.length) :
    List.lookup es[i]
      ((((es.drop tys.length).map fun x => (x, TyKind.unknown)).reverse) ++
        ((es.zip tys).reverse ++ m0)) = some .unknown := by
  apply lookup_append_left
  apply lookup_of_mem_of_nodup_keys
  · rw [List.mem_reverse, List.mem_map]
    refine ⟨es[i], ?_, rfl⟩
    have hj : i - tys.length < (es.drop tys.length).length := by simp; omega
    rw [List.mem_iff_getElem]
    refine ⟨i - tys.length, hj, ?_⟩
    rw [List.getElem_drop]
    congr 1
    omega
  · have hmap : ((es.drop tys.length).map fun x => (x, TyKind.unknown)).map Prod.fst =
        es.drop tys.length := by
      rw [List.map_map]
      have hcomp : (Prod.fst ∘ fun x : Nat => (x, TyKind.unknown)) = id := rfl
      rw [hcomp, List.map_id]
    rw [List.map_reverse, hmap]
    exact List.nodup_reverse.mpr (hnodup.sublist (List.drop_sublist _ _))

/-- C2 (amended): destructuring a fixed tuple of `m` element types into `n`
immediate left-hand leaf names with `n ≠ m` assigns the i-th element type to
the i-th name for `i < min n m`, records `Unknown` for every excess left-hand
name, and emits exactly one `Tuple size mismatch` diagnostic carrying `n` and
`m`, on the root expression's range. -/
theorem assign_exprs_tuple_mismatch (env : Env) (fuel root : Nat) (es : List Nat)
    (tys : List TyKind) (c : Bool) (d : List Diagnostic)
    (pt m0 : List (Nat × TyKind)) (r : Nat)
    (hnames : ∀ x ∈ es, ∃ nm, env.module.expr x = Expr.name nm)
    (hnodup : es.Nodup)
    (hlen : es.length ≠ tys.length)
    (hrange : env.exprRange root = Option.some r)
    (hfuel : es.length + 3 ≤ fuel) :
    assignExprsSourceTy fuel env root es (.tuple tys) ⟨c, ⟨d, pt, m0⟩⟩ =
      (.ok (), ⟨c,
        ⟨d ++ [⟨"Tuple size mismatch, " ++ toString es.length ++
            " on left-hand side and " ++ toString tys.length ++ " on right-hand side",
          .error, ⟨env.fileId, r⟩⟩], pt,
        (((es.drop tys.length).map fun x => (x, TyKind.unknown)).reverse) ++
          ((es.zip tys).reverse ++ m0)⟩⟩) ∧
    (∀ i, (hi : i < es.length) → (him : i < tys.length) →
      lookupTy ((((es.drop tys.length).map fun x => (x, TyKind.unknown)).reverse) ++
        ((es.zip tys).reverse ++ m0)) es[i] = some tys[i]) ∧
    (∀ i, tys.length ≤ i → (hi : i < es.length) →
      lookupTy ((((es.drop tys.length).map fun x => (x, TyKind.unknown)).reverse) ++
        ((es.zip tys).reverse ++ m0)) es[i] = some .unknown) := by
  refine ⟨?_, fun i hi him => lookup_destructured_pair es tys m0 hnodup i hi him,
    fun i hm hi => lookup_destructured_excess es tys m0 hnodup i hm hi⟩
  obtain ⟨f, rfl⟩ : ∃ f, fuel = f + 1 := ⟨fuel - 1, by omega⟩
  have h1 := assignPairs_names env root (es.zip tys) f c d pt m0
    (fun p hp => by
      obtain ⟨a, b⟩ := p
      exact hnames a (List.of_mem_zip hp).1)
    (by rw [List.length_zip]; omega)
  show assignExprsSourceTy (f + 1) env root es (.tuple tys) ⟨c, ⟨d, pt, m0⟩⟩ = _
  simp only [assignExprsSourceTy]
  rw [h1]
  show (if es.length ≠ tys.length then _ else _) = _
  rw [if_pos hlen]
  rcases Nat.lt_or_ge tys.length es.length with hlt | hge
  · have h2 := assignUnknownList_names env (es.drop tys.length) f c d pt
      ((es.zip tys).reverse ++ m0)
      (fun x hx => hnames x (List.drop_subset _ _ hx))
      (by rw [List.length_drop]; omega)
    rw [if_pos hlt, h2]
    simp [addDiagnostic, hrange, addDiagnosticForRange]
  · rw [if_neg (by omega)]
    have hdrop : es.drop tys.length = [] := List.drop_eq_nil_of_le hge
    simp [addDiagnostic, hrange, addDiagnosticForRange, hdrop]

/-- C2 counterexample: for the nested pattern `a, (b, c) = (1, "s")` the
left-hand side has 3 leaves and the right-hand tuple 2 elements, yet the
engine emits no `Tuple size mismatch` diagnostic at all: it matches the two
*immediate* elements pairwise and instead diagnoses `Type "string" is not
iterable` while destructuring `(b, c)` against `string`. -/
theorem assign_exprs_leaf_count_counterexample :
    (assignExprsSourceTy 9 envNestedPattern 4 [0, 3]
        (.tuple [.int, .string]) initSt).2.cx.diagnostics =
      [⟨"Type \"string\" is not iterable", .error, ⟨0, 4⟩⟩] ∧
    (∀ dg ∈ (assignExprsSourceTy 9 envNestedPattern 4 [0, 3]
        (.tuple [.int, .string]) initSt).2.cx.diagnostics,
      dg.message ≠ "Tuple size mismatch, 3 on left-hand side and 2 on right-hand side") := by
  decide

/-- C2 witness: `x, y = (1, 2, 3)` in concrete form (2 left-hand leaves,
3 right-hand element types). -/
theorem assign_exprs_tuple_mismatch_witness :
    (assignExprsSourceTy 5 envTwoNames 5 [0, 1] (.tuple [.int, .int, .int])
        ⟨false, ⟨[], [], []⟩⟩ =
      (.ok (), ⟨false,
        ⟨[⟨"Tuple size mismatch, 2 on left-hand side and 3 on right-hand side",
            .error, ⟨0, 5⟩⟩], [],
        [(1, .int), (0, .int)]⟩⟩)) ∧
      lookupTy [(1, TyKind.int), (0, TyKind.int)] 0 = some .int ∧
      lookupTy [(1, TyKind.int), (0, TyKind.int)] 1 = some .int := by
  have h := assign_exprs_tuple_mismatch envTwoNames 5 5 [0, 1] [.int, .int, .int]
    false [] [] [] 5
    (by
      intro x hx
      simp at hx
      rcases hx with rfl | rfl
      · exact ⟨"x", rfl⟩
      · exact ⟨"y", rfl⟩)
    (by decide) (by decide) (by decide) (by decide)
  refine ⟨h.1.trans (by decide), ?_, ?_⟩
  · exact (h.2.1 0 (by decide) (by decide)).trans (by decide)
  · exact (h.2.1 1 (by decide) (by decide)).trans (by decide)

/-! ## C6: code-flow antecedent wellformedness -/

/-- The pre-allocated context satisfies the invariant. -/
theorem flowCtx_init_inv : FlowCtx.Inv FlowCtx.init := by
  refine ⟨rfl, ?_, ?_, ?_⟩
  · intro i h
    match i, h with
    | 0, _ => rfl
    | 1, h => simp [FlowCtx.init, List.get?] at h
    | n + 2, h => simp [FlowCtx.init, List.get?] at h
  · intro i ants h
    match i, h with
    | 0, h => simp [FlowCtx.init, List.get?] at h
    | 1, h => simp [FlowCtx.init, List.get?] at h
    | n + 2, h => simp [FlowCtx.init, List.get?] at h
  · intro i ants h
    match i, h with
    | 0, h => simp [FlowCtx.init, List.get?] at h
    | 1, h => simp [FlowCtx.init, List.get?] at h
    | n + 2, h => simp [FlowCtx.init, List.get?] at h

/-- Lookup after `List.set` at the written index. -/
theorem get?_set_self (l : List FlowNode) (t : Nat) (v : FlowNode)
    (h : t < l.length) : (l.set t v).get? t = some v := by
  simp [List.get?_eq_getElem?, List.getElem?_set, h]

/-- Lookup after `List.set` at any other index. -/
theorem get?_set_other (l : List FlowNode) (t i : Nat) (v : FlowNode)
    (h : i ≠ t) : (l.set t v).get? i = l.get? i := by
  simp [List.get?_eq_getElem?, List.getElem?_set, Ne.symm h]

/-- `push_antecedent` preserves the invariant: it refuses the unreachable
node and duplicates before pushing. -/
theorem pushAntecedent_inv (ctx : FlowCtx) (t a : Nat) (h : ctx.Inv) :
    (ctx.pushAntecedent t a).Inv := by
  obtain ⟨hu, huniq, hbr, hlp⟩ := h
  unfold FlowCtx.pushAntecedent
  split
  case h_1 ants hget =>
    split
    case isTrue hcond =>
      rw [Bool.and_eq_true] at hcond
      have hne : a ≠ ctx.unreachableNode := by simpa using hcond.1
      have hnotmem : a ∉ ants := by
        have := hcond.2
        simp at this
        exact this
      have htlen : t < ctx.flowNodes.length := by
        have := List.get?_eq_some.mp hget
        exact this.1
      have htu : t ≠ ctx.unreachableNode := fun hEq => by
        rw [hEq, hu] at hget
        cases hget
      obtain ⟨hnodup, hnomem⟩ := hbr t ants hget
      refine ⟨?_, ?_, ?_, ?_⟩
      · rw [get?_set_other _ _ _ _ (Ne.symm htu)]
        exact hu
      · intro i hi
        by_cases hit : i = t
        · subst hit
          rw [get?_set_self _ _ _ htlen] at hi
          cases hi
        · rw [get?_set_other _ _ _ _ hit] at hi
          exact huniq i hi
      · intro i ants2 hi
        by_cases hit : i = t
        · subst hit
          rw [get?_set_self _ _ _ htlen] at hi
          cases hi
          constructor
          · exact hnodup.append (List.nodup_singleton a)
              (fun x hx hx2 => by
                rw [List.mem_singleton] at hx2
                exact hnotmem (hx2 ▸ hx))
          · intro hmem
            rcases List.mem_append.mp hmem with hm | hm
            · exact hnomem hm
            · rw [List.mem_singleton] at hm
              exact hne hm.symm
        · rw [get?_set_other _ _ _ _ hit] at hi
          exact hbr i ants2 hi
      · intro i ants2 hi
        by_cases hit : i = t
        · subst hit
          rw [get?_set_self _ _ _ htlen] at hi
          cases hi
        · rw [get?_set_other _ _ _ _ hit] at hi
          exact hlp i ants2 hi
    case isFalse => exact ⟨hu, huniq, hbr, hlp⟩
  case h_2 ants hget =>
    split
    case isTrue hcond =>
      rw [Bool.and_eq_true] at hcond
      have hne : a ≠ ctx.unreachableNode := by simpa using hcond.1
      have hnotmem : a ∉ ants := by
        have := hcond.2
        simp at this
        exact this
      have htlen : t < ctx.flowNodes.length := by
        have := List.get?_eq_some.mp hget
        exact this.1
      have htu : t ≠ ctx.unreachableNode := fun hEq => by
        rw [hEq, hu] at hget
        cases hget
      obtain ⟨hnodup, hnomem⟩ := hlp t ants hget
      refine ⟨?_, ?_, ?_, ?_⟩
      · rw [get?_set_other _ _ _ _ (Ne.symm htu)]
        exact hu
      · intro i hi
        by_cases hit : i = t
        · subst hit
          rw [get?_set_self _ _ _ htlen] at hi
          cases hi
        · rw [get?_set_other _ _ _ _ hit] at hi
          exact huniq i hi
      · intro i ants2 hi
        by_cases hit : i = t
        · subst hit
          rw [get?_set_self _ _ _ htlen] at hi
          cases hi
        · rw [get?_set_other _ _ _ _ hit] at hi
          exact hbr i ants2 hi
      · intro i ants2 hi
        by_cases hit : i = t
        · subst hit
          rw [get?_set_self _ _ _ htlen] at hi
          cases hi
          constructor
          · exact hnodup.append (List.nodup_singleton a)
              (fun x hx hx2 => by
                rw [List.mem_singleton] at hx2
                exact hnotmem (hx2 ▸ hx))
          · intro hmem
            rcases List.mem_append.mp hmem with hm | hm
            · exact hnomem hm
            · rw [List.mem_singleton] at hm
              exact hne hm.symm
        · rw [get?_set_other _ _ _ _ hit] at hi
          exact hlp i ants2 hi
    case isFalse => exact ⟨hu, huniq, hbr, hlp⟩
  case h_3 => exact ⟨hu, huniq, hbr, hlp⟩

/-- Lookup in an arena extended by one node. -/
theorem get?_append_one (l : List FlowNode) (d : FlowNode) (i : Nat) :
    (l ++ [d]).get? i =
      if i < l.length then l.get? i
      else if i = l.length then some d else Option.none := by
  rcases Nat.lt_trichotomy i l.length with h | h | h
  · rw [if_pos h]
    simp [List.get?_eq_getElem?, List.getElem?_append_left h]
  · subst h
    rw [if_neg (by omega), if_pos rfl]
    simp [List.get?_eq_getElem?]
  · rw [if_neg (by omega), if_neg (by omega)]
    rw [List.get?_eq_none.mpr (by simp; omega)]

/-- Allocating a start, assign, or empty branch/loop node preserves the
invariant. -/
theorem newFlowNode_inv (ctx : FlowCtx) (data : FlowNode) (h : ctx.Inv)
    (hnu : data ≠ .unreachable)
    (hba : ∀ ants, data = .branch ants ∨ data = .loop ants →
      ants.Nodup ∧ ctx.unreachableNode ∉ ants) :
    (ctx.newFlowNode data).2.Inv := by
  obtain ⟨hu, huniq, hbr, hlp⟩ := h
  have hulen : ctx.unreachableNode < ctx.flowNodes.length :=
    (List.get?_eq_some.mp hu).1
  refine ⟨?_, ?_, ?_, ?_⟩
  · show (ctx.flowNodes ++ [data]).get? ctx.unreachableNode = _
    rw [get?_append_one, if_pos hulen]
    exact hu
  · intro i hi
    rw [show (ctx.newFlowNode data).2.flowNodes = ctx.flowNodes ++ [data] from rfl,
      get?_append_one] at hi
    split at hi
    · exact huniq i hi
    · split at hi
      · cases hi
        exact absurd rfl hnu
      · cases hi
  · intro i ants hi
    rw [show (ctx.newFlowNode data).2.flowNodes = ctx.flowNodes ++ [data] from rfl,
      get?_append_one] at hi
    split at hi
    · exact hbr i ants hi
    · split at hi
      · cases hi
        exact hba ants (Or.inl rfl)
      · cases hi
  · intro i ants hi
    rw [show (ctx.newFlowNode data).2.flowNodes = ctx.flowNodes ++ [data] from rfl,
      get?_append_one] at hi
    split at hi
    · exact hlp i ants hi
    · split at hi
      · cases hi
        exact hba ants (Or.inr rfl)
      · cases hi

/-- Every lowering function preserves the antecedent invariant. -/
theorem lower_preserves_inv (fuel : Nat) (m : HirModule) (sc : ScopesEnv) :
    (∀ stmts ctx, ctx.Inv → (lowerStmts fuel m sc stmts ctx).Inv) ∧
    (∀ st ctx, ctx.Inv → (lowerStmt fuel m sc st ctx).Inv) ∧
    (∀ e ctx, ctx.Inv → (lowerExpr fuel m sc e ctx).Inv) ∧
    (∀ es ctx, ctx.Inv → (lowerExprList fuel m sc es ctx).Inv) ∧
    (∀ e src ctx, ctx.Inv → (lowerAssignmentTarget fuel m sc e src ctx).Inv) ∧
    (∀ es src ctx, ctx.Inv → (lowerAssignmentTargets fuel m sc es src ctx).Inv) ∧
    (∀ cls ctx, ctx.Inv → (lowerCompClauses fuel m sc cls ctx).Inv) := by
  induction fuel with
  | zero =>
    exact ⟨fun _ _ h => h, fun _ _ h => h, fun _ _ h => h, fun _ _ h => h,
      fun _ _ _ h => h, fun _ _ _ h => h, fun _ _ h => h⟩
  | succ f ih =>
    obtain ⟨ihStmts, ihStmt, ihExpr, ihExprList, ihTarget, ihTargets, ihComp⟩ := ih
    have hStart : ∀ ctx : FlowCtx, ctx.Inv → (ctx.newFlowNode .start).2.Inv :=
      fun ctx h => newFlowNode_inv ctx .start h
        (fun hh => FlowNode.noConfusion hh)
        (fun ants hor => by rcases hor with hh | hh <;> exact FlowNode.noConfusion hh)
    have hBranch : ∀ ctx : FlowCtx, ctx.Inv → (ctx.newFlowNode (.branch [])).2.Inv :=
      fun ctx h => newFlowNode_inv ctx (.branch []) h
        (fun hh => FlowNode.noConfusion hh)
        (fun ants hor => by
          rcases hor with hh | hh
          · cases hh
            exact ⟨List.nodup_nil, List.not_mem_nil _⟩
          · exact FlowNode.noConfusion hh)
    have hLoop : ∀ ctx : FlowCtx, ctx.Inv → (ctx.newFlowNode (.loop [])).2.Inv :=
      fun ctx h => newFlowNode_inv ctx (.loop []) h
        (fun hh => FlowNode.noConfusion hh)
        (fun ants hor => by
          rcases hor with hh | hh
          · exact FlowNode.noConfusion hh
          · cases hh
            exact ⟨List.nodup_nil, List.not_mem_nil _⟩)
    have hAssignNode : ∀ (ctx : FlowCtx) e nm scp src ant, ctx.Inv →
        (ctx.newFlowNode (.assign e nm scp src ant)).2.Inv :=
      fun ctx e nm scp src ant h => newFlowNode_inv ctx _ h
        (fun hh => FlowNode.noConfusion hh)
        (fun ants hor => by rcases hor with hh | hh <;> exact FlowNode.noConfusion hh)
    refine ⟨?_, ?_, ?_, ?_, ?_, ?_, ?_⟩
    · intro stmts ctx h
      cases stmts with
      | nil => exact h
      | cons st rest =>
        simp only [lowerStmts]
        split
        · exact ihStmt st ctx h
        · exact ihStmts rest _ (ihStmt st ctx h)
    · intro st ctx h
      cases hst : m.stmt st <;> simp only [lowerStmt, hst]
      case missing => exact h
      case loadStmt => exact h
      case passStmt => exact h
      case assign lhs rhs => exact ihTarget lhs rhs ctx h
      case defStmt stmts => exact ihStmts stmts _ (hStart ctx h)
      case ifStmt test ifStmts elifOrElse =>
        cases elifOrElse with
        | none =>
          exact pushAntecedent_inv _ _ _ (pushAntecedent_inv _ _ _
            (ihStmts ifStmts _ (hBranch _ (ihExpr test ctx h))))
        | some e2 =>
          cases e2 with
          | inl elifStmt =>
            exact pushAntecedent_inv _ _ _ (ihStmt elifStmt _
              (pushAntecedent_inv _ _ _
                (ihStmts ifStmts _ (hBranch _ (ihExpr test ctx h)))))
          | inr elseStmts =>
            exact pushAntecedent_inv _ _ _ (ihStmts elseStmts _
              (pushAntecedent_inv _ _ _
                (ihStmts ifStmts _ (hBranch _ (ihExpr test ctx h)))))
      case returnStmt o =>
        cases o with
        | none => exact h
        | some e => exact ihExpr e ctx h
      case exprStmt e => exact ihExpr e ctx h
      case forStmt iterable targets stmts =>
        exact pushAntecedent_inv _ _ _ (pushAntecedent_inv _ _ _
          (ihStmts stmts _ (pushAntecedent_inv _ _ _
            (hBranch _ (hLoop _ (ihTargets targets iterable ctx h))))))
      case continueStmt =>
        cases hct : ctx.currContinueTarget with
        | none => simp only [hct]; exact h
        | some t => simp only [hct]; exact pushAntecedent_inv _ _ _ h
      case breakStmt =>
        cases hct : ctx.currBreakTarget with
        | none => simp only [hct]; exact h
        | some t => simp only [hct]; exact pushAntecedent_inv _ _ _ h
    · intro e ctx h
      cases hexpr : m.expr e <;> simp only [lowerExpr, hexpr]
      case name nm => exact h
      case dictComp entry clauses =>
        exact ihExpr _ _ (ihExpr _ _ (ihComp clauses ctx h))
      case listComp body clauses => exact ihExpr _ _ (ihComp clauses ctx h)
      all_goals exact ihExprList _ ctx h
    · intro es ctx h
      cases es with
      | nil => exact h
      | cons e rest => exact ihExprList rest _ (ihExpr e ctx h)
    · intro e src ctx h
      have h0 := ihExpr src ctx h
      cases hexpr : m.expr e <;> simp only [lowerAssignmentTarget, hexpr]
      case name nm => exact hAssignNode _ _ _ _ _ _ h0
      case paren inner => exact ihTarget inner src _ h0
      case tuple es => exact ihTargets es src _ h0
      case list es => exact ihTargets es src _ h0
      all_goals exact ihExprList _ _ h0
    · intro es src ctx h
      cases es with
      | nil => exact h
      | cons e rest => exact ihTargets rest src _ (ihTarget e src ctx h)
    · intro cls ctx h
      cases cls with
      | nil => exact h
      | cons c rest =>
        cases c with
        | forClause iterable targets =>
          exact ihComp rest _ (ihTargets targets iterable _ (ihExpr iterable ctx h))
        | ifClause test => exact ihComp rest _ (ihExpr test ctx h)

/-- C6: in every graph produced by `lower_to_code_flow_graph`, the antecedent
list of every `Branch` and every `Loop` node is duplicate-free and never
contains the unreachable node; and the invariant is preserved by every
antecedent insertion (`push_antecedent`) on an invariant-respecting context. -/
theorem cfg_branch_loop_antecedents_wellformed (fuel : Nat) (m : HirModule)
    (sc : ScopesEnv) :
    (∀ i ants,
        ((lowerToCodeFlowGraph fuel m sc).flowNodes.get? i = some (.branch ants) ∨
          (lowerToCodeFlowGraph fuel m sc).flowNodes.get? i = some (.loop ants)) →
        ants.Nodup ∧
          ∀ u, (lowerToCodeFlowGraph fuel m sc).flowNodes.get? u = some .unreachable →
            u ∉ ants) ∧
    (∀ (ctx : FlowCtx) (t a : Nat), ctx.Inv → (ctx.pushAntecedent t a).Inv) := by
  constructor
  · intro i ants hor
    obtain ⟨hu, huniq, hbr, hlp⟩ :=
      (lower_preserves_inv fuel m sc).1 m.topLevel FlowCtx.init flowCtx_init_inv
    have hcase : ants.Nodup ∧
        (lowerStmts fuel m sc m.topLevel FlowCtx.init).unreachableNode ∉ ants := by
      rcases hor with hg | hg
      · exact hbr i ants hg
      · exact hlp i ants hg
    refine ⟨hcase.1, fun u hu2 => ?_⟩
    have heq : u = (lowerStmts fuel m sc m.topLevel FlowCtx.init).unreachableNode :=
      huniq u hu2
    exact heq ▸ hcase.2
  · exact fun ctx t a h => pushAntecedent_inv ctx t a h

/-! ## C10: all inference diagnostics have severity Error -/

/-- `add_diagnostic_for_range` hardcodes `Severity::Error`, so severity-purity
of the accumulated list is preserved (and reflected). -/
theorem diags_addDiagnosticForRange (env : Env) (r : Nat) (msg : String) (s : St) :
    DiagsAllError (addDiagnosticForRange env r msg s) ↔ DiagsAllError s := by
  unfold DiagsAllError addDiagnosticForRange
  constructor
  · intro h dg hdg
    exact h dg (by simp [hdg])
  · intro h dg hdg
    simp at hdg
    rcases hdg with hdg | rfl
    · exact h dg hdg
    · rfl

/-- Severity-purity through `add_diagnostic`. -/
theorem diags_addDiagnostic (env : Env) (e : Nat) (msg : String) (s : St) :
    DiagsAllError (addDiagnostic env e msg s).2 ↔ DiagsAllError s := by
  unfold addDiagnostic
  split
  · exact Iff.rfl
  · exact diags_addDiagnosticForRange ..

/-- `set_expr_type` leaves the diagnostics untouched. -/
theorem diags_setExprType (e : Nat) (ty : TyKind) (s : St) :
    DiagsAllError (setExprType e ty s).2 ↔ DiagsAllError s :=
  Iff.rfl

/-- `finishInfer` leaves the diagnostics untouched. -/
theorem diags_finishInfer (e : Nat) (ty : TyKind) (s : St) :
    DiagsAllError (finishInfer e ty s).2 ↔ DiagsAllError s :=
  Iff.rfl

/-- Severity-purity through `lower_param_type_ref`. -/
theorem diags_lowerParamTypeRef (env : Env) (p : Nat) (tr : TypeRef) (s : St)
    (hs : DiagsAllError s) : DiagsAllError (lowerParamTypeRef env p tr s).2 := by
  unfold lowerParamTypeRef
  split
  · exact hs
  · split
    · exact hs
    · split
      · exact hs
      · exact (diags_addDiagnosticForRange ..).mpr hs

/-- Severity-purity through `param_ty`. -/
theorem diags_paramTy (env : Env) (p : Nat) (s : St) (hs : DiagsAllError s) :
    DiagsAllError (paramTy env p s).2 := by
  unfold paramTy
  split
  · exact hs
  · split
    · exact hs
    · rename_i param heq
      cases param with
      | simple nm tr =>
        cases tr with
        | none => exact hs
        | some tr2 =>
          rcases hlp : lowerParamTypeRef env p tr2 s with ⟨o, s2⟩
          have h2 := diags_lowerParamTypeRef env p tr2 s hs
          rw [hlp] at h2
          simp only [hlp]
          cases o
          · exact h2
          · exact h2
      | argsList nm tr =>
        cases tr with
        | none => exact hs
        | some tr2 =>
          rcases hlp : lowerParamTypeRef env p tr2 s with ⟨o, s2⟩
          have h2 := diags_lowerParamTypeRef env p tr2 s hs
          rw [hlp] at h2
          simp only [hlp]
          cases o
          · exact h2
          · exact h2
      | kwargsList nm => exact hs

/-- Severity-purity through `validate_provider`. -/
theorem diags_validateProvider (env : Env) (callExpr : Nat)
    (param : BuiltinFunctionParam) (pty : TyKind) (pr : SlotProvider) (s : St)
    (hs : DiagsAllError s) :
    DiagsAllError (validateProvider env callExpr param pty pr s) := by
  unfold validateProvider
  split
  · split
    · exact hs
    · exact (diags_addDiagnostic ..).mpr hs
  · split
    · exact hs
    · exact (diags_addDiagnostic ..).mpr hs
  · exact hs

/-- Severity-purity through a fold of provider validations. -/
theorem diags_foldValidate (env : Env) (callExpr : Nat)
    (param : BuiltinFunctionParam) (pty : TyKind) :
    ∀ (providers : List SlotProvider) (s : St), DiagsAllError s →
      DiagsAllError (providers.foldl
        (fun st pr => validateProvider env callExpr param pty pr st) s)
  | [], _, hs => hs
  | pr :: rest, s, hs =>
      diags_foldValidate env callExpr param pty rest _
        (diags_validateProvider env callExpr param pty pr s hs)

/-- Severity-purity through the providers of one slot. -/
theorem diags_validateSlotProviders (env : Env) (callExpr : Nat)
    (param : BuiltinFunctionParam) (pty : TyKind) (slot : Slot) (s : St)
    (hs : DiagsAllError s) :
    DiagsAllError (validateSlotProviders env callExpr param pty slot s) := by
  cases slot with
  | positional provider => exact diags_validateProvider env callExpr param pty provider s hs
  | keyword nm provider => exact diags_validateProvider env callExpr param pty provider s hs
  | varArgList providers => exact diags_foldValidate env callExpr param pty providers s hs
  | varArgDict providers => exact diags_foldValidate env callExpr param pty providers s hs

/-- Severity-purity through the slot-validation loop. -/
theorem diags_validateSlots (env : Env) (callExpr : Nat) (subst : List TyKind) :
    ∀ (pairs : List (BuiltinFunctionParam × Slot)) (s : St), DiagsAllError s →
      DiagsAllError (validateSlots env callExpr subst pairs s).2
  | [], s, hs => hs
  | (param, slot) :: rest, s, hs => by
    unfold validateSlots
    split
    · exact hs
    · exact diags_validateSlots env callExpr subst rest _
        (diags_validateSlotProviders env callExpr param _ slot s hs)

/-- Severity-purity through the argument-matching loop. -/
theorem diags_processArgs (env : Env) :
    ∀ (args : List (Argument × TyKind)) (slots : List Slot) (s : St),
      DiagsAllError s → DiagsAllError (processArgs env args slots s).2
  | [], _, _, hs => hs
  | (Argument.simple e, argTy) :: rest, slots, s, hs => by
    show DiagsAllError (match fillSimple slots (SlotProvider.single e argTy) with
      | some slots2 => processArgs env rest slots2 s
      | none => processArgs env rest slots
          (addDiagnostic env e "Unexpected positional argument" s).2).2
    cases hfill : fillSimple slots (SlotProvider.single e argTy) with
    | some slots2 =>
      exact diags_processArgs env rest slots2 s hs
    | none =>
      exact diags_processArgs env rest slots _
        ((diags_addDiagnostic env e "Unexpected positional argument" s).mpr hs)
  | (Argument.keyword nm e, argTy) :: rest, slots, s, hs => by
    show DiagsAllError (match fillKeyword slots nm (SlotProvider.single e argTy) with
      | some slots2 => processArgs env rest slots2 s
      | none => processArgs env rest slots
          (addDiagnostic env e
            ("Unexpected keyword argument \"" ++ nm ++ "\"") s).2).2
    cases hfill : fillKeyword slots nm (SlotProvider.single e argTy) with
    | some slots2 =>
      exact diags_processArgs env rest slots2 s hs
    | none =>
      exact diags_processArgs env rest slots _
        ((diags_addDiagnostic env e
          ("Unexpected keyword argument \"" ++ nm ++ "\"") s).mpr hs)
  | (Argument.unpackedList e, argTy) :: rest, slots, s, hs =>
    diags_processArgs env rest (markUnpackedList slots e argTy) s hs
  | (Argument.unpackedDict e, argTy) :: rest, slots, s, hs =>
    diags_processArgs env rest (markUnpackedDict slots e argTy) s hs

/-- Transport of severity-purity through an equation naming the components of
an engine result pair. -/
theorem diags_pair {α : Type} {x : Outcome α × St} {o : Outcome α} {s2 : St}
    (h : x = (o, s2)) (hx : DiagsAllError x.2) : DiagsAllError s2 := by
  subst h; exact hx

/-- At fuel `0` every engine function unwinds immediately with the state
untouched, so the invariant holds. -/
theorem diagsEngineInv_zero : DiagsEngineInv 0 where
  inferE := fun _ _ _ hs => hs
  common := fun _ _ _ _ hs => hs
  commonLoop := fun _ _ _ _ _ hs => hs
  exprTys := fun _ _ _ hs => hs
  callArgs := fun _ _ _ hs => hs
  unaryE := fun _ _ _ _ _ hs => hs
  binaryE := fun _ _ _ _ _ _ hs => hs
  sourceAssign := fun _ _ _ hs => hs
  forTargets := fun _ _ _ _ _ hs => hs
  exprSrc := fun _ _ _ _ _ hs => hs
  exprsSrc := fun _ _ _ _ _ hs => hs
  eachTy := fun _ _ _ _ _ hs => hs
  pairsTy := fun _ _ _ _ hs => hs
  unknownL := fun _ _ _ hs => hs
  unknownRec := fun _ _ _ hs => hs

set_option maxHeartbeats 1000000 in
/-- The inductive step of the severity-purity invariant: each engine function
at fuel `fuel + 1` only touches the state through the severity-pure
primitives and through recursive calls at fuel `fuel`. -/
theorem diagsEngineInv_succ (fuel : Nat) (ih : DiagsEngineInv fuel) :
    DiagsEngineInv (fuel + 1) where
  inferE := by
    intro env e s hs
    cases hmemo : lookupTy s.cx.typeOfExpr e with
    | some ty => simp only [inferExpr, hmemo]; exact hs
    | none =>
    cases hflag : s.cancelled with
    | true => simp [inferExpr, hmemo, hflag]; exact hs
    | false =>
    cases hexpr : env.module.expr e with
    | name nm =>
      cases hres : (env.resolveName e nm).bind List.getLast? with
      | none =>
        simp [inferExpr, hmemo, hflag, hexpr, hres]
        exact (diags_finishInfer ..).mpr ((diags_addDiagnostic ..).mpr hs)
      | some decl =>
        cases decl with
        | «variable» id src =>
          cases src with
          | none =>
            simp [inferExpr, hmemo, hflag, hexpr, hres]
            exact (diags_finishInfer ..).mpr hs
          | some source =>
            rcases h1 : inferSourceExprAssign fuel env source s with ⟨o, s1⟩
            have d1 := diags_pair h1 (ih.sourceAssign env source s hs)
            cases o with
            | panicked p =>
              simp [inferExpr, hmemo, hflag, hexpr, hres, h1]; exact d1
            | ok u =>
              simp [inferExpr, hmemo, hflag, hexpr, hres, h1]
              split
              · exact (diags_finishInfer ..).mpr d1
              · exact (diags_finishInfer ..).mpr d1
        | function func =>
          simp [inferExpr, hmemo, hflag, hexpr, hres]
          exact (diags_finishInfer ..).mpr hs
        | parameter id =>
          rcases hp : paramTy env id s with ⟨o, s1⟩
          have d1 := diags_pair hp (diags_paramTy env id s hs)
          cases o with
          | panicked p =>
            simp [inferExpr, hmemo, hflag, hexpr, hres, hp]; exact d1
          | ok ty =>
            simp [inferExpr, hmemo, hflag, hexpr, hres, hp]
            exact (diags_finishInfer ..).mpr d1
        | loadItem =>
          simp [inferExpr, hmemo, hflag, hexpr, hres]
          exact (diags_finishInfer ..).mpr hs
        | builtinVariable =>
          simp [inferExpr, hmemo, hflag, hexpr, hres]
          exact (diags_finishInfer ..).mpr hs
        | builtinFunction func =>
          simp [inferExpr, hmemo, hflag, hexpr, hres]
          exact (diags_finishInfer ..).mpr hs
        | customFunction func =>
          simp [inferExpr, hmemo, hflag, hexpr, hres]
          exact (diags_finishInfer ..).mpr hs
        | customVariable typeRef =>
          simp [inferExpr, hmemo, hflag, hexpr, hres]
          exact (diags_finishInfer ..).mpr hs
    | list es =>
      rcases h1 : getCommonType fuel env es .unknown s with ⟨o, s1⟩
      have d1 := diags_pair h1 (ih.common env es .unknown s hs)
      cases o with
      | panicked p => simp [inferExpr, hmemo, hflag, hexpr, h1]; exact d1
      | ok t =>
        simp [inferExpr, hmemo, hflag, hexpr, h1]
        exact (diags_finishInfer ..).mpr d1
    | listComp body cls =>
      rcases h1 : inferExpr fuel env body s with ⟨o, s1⟩
      have d1 := diags_pair h1 (ih.inferE env body s hs)
      cases o with
      | panicked p => simp [inferExpr, hmemo, hflag, hexpr, h1]; exact d1
      | ok t =>
        simp [inferExpr, hmemo, hflag, hexpr, h1]
        exact (diags_finishInfer ..).mpr d1
    | dict entries =>
      rcases h1 : getCommonType fuel env (entries.map DictEntry.key) .any s with ⟨o1, s1⟩
      have d1 := diags_pair h1 (ih.common env (entries.map DictEntry.key) .any s hs)
      cases o1 with
      | panicked p => simp [inferExpr, hmemo, hflag, hexpr, h1]; exact d1
      | ok keyTy =>
        rcases h2 : getCommonType fuel env (entries.map DictEntry.value) .unknown s1
          with ⟨o2, s2⟩
        have d2 := diags_pair h2
          (ih.common env (entries.map DictEntry.value) .unknown s1 d1)
        cases o2 with
        | panicked p => simp [inferExpr, hmemo, hflag, hexpr, h1, h2]; exact d2
        | ok valueTy =>
          simp [inferExpr, hmemo, hflag, hexpr, h1, h2]
          exact (diags_finishInfer ..).mpr d2
    | dictComp entry cls =>
      rcases h1 : inferExpr fuel env entry.key s with ⟨o1, s1⟩
      have d1 := diags_pair h1 (ih.inferE env entry.key s hs)
      cases o1 with
      | panicked p => simp [inferExpr, hmemo, hflag, hexpr, h1]; exact d1
      | ok keyTy =>
        rcases h2 : inferExpr fuel env entry.value s1 with ⟨o2, s2⟩
        have d2 := diags_pair h2 (ih.inferE env entry.value s1 d1)
        cases o2 with
        | panicked p => simp [inferExpr, hmemo, hflag, hexpr, h1, h2]; exact d2
        | ok valueTy =>
          simp [inferExpr, hmemo, hflag, hexpr, h1, h2]
          exact (diags_finishInfer ..).mpr d2
    | literal lit =>
      simp [inferExpr, hmemo, hflag, hexpr]
      exact (diags_finishInfer ..).mpr hs
    | unary op opExpr =>
      cases op with
      | none =>
        simp [inferExpr, hmemo, hflag, hexpr]
        exact (diags_finishInfer ..).mpr hs
      | some uop =>
        rcases h1 : inferUnaryExpr fuel env e opExpr uop s with ⟨o1, s1⟩
        have d1 := diags_pair h1 (ih.unaryE env e opExpr uop s hs)
        cases o1 with
        | panicked p => simp [inferExpr, hmemo, hflag, hexpr, h1]; exact d1
        | ok ty =>
          simp [inferExpr, hmemo, hflag, hexpr, h1]
          exact (diags_finishInfer ..).mpr d1
    | binary lhs rhs op =>
      cases op with
      | none =>
        simp [inferExpr, hmemo, hflag, hexpr]
        exact (diags_finishInfer ..).mpr hs
      | some bop =>
        rcases h1 : inferBinaryExpr fuel env e lhs rhs bop s with ⟨o1, s1⟩
        have d1 := diags_pair h1 (ih.binaryE env e lhs rhs bop s hs)
        cases o1 with
        | panicked p => simp [inferExpr, hmemo, hflag, hexpr, h1]; exact d1
        | ok ty =>
          simp [inferExpr, hmemo, hflag, hexpr, h1]
          exact (diags_finishInfer ..).mpr d1
    | dot recv field =>
      rcases h1 : inferExpr fuel env recv s with ⟨o1, s1⟩
      have d1 := diags_pair h1 (ih.inferE env recv s hs)
      cases o1 with
      | panicked p => simp [inferExpr, hmemo, hflag, hexpr, h1]; exact d1
      | ok receiverTy =>
        simp [inferExpr, hmemo, hflag, hexpr, h1]
        split
        · exact d1
        · split
          · exact d1
          · split
            · exact d1
            · split
              · exact d1
              · split
                · exact (diags_finishInfer ..).mpr d1
                · exact (diags_finishInfer ..).mpr ((diags_addDiagnostic ..).mpr d1)
    | index lhs idx =>
      rcases h1 : inferExpr fuel env lhs s with ⟨o1, s1⟩
      have d1 := diags_pair h1 (ih.inferE env lhs s hs)
      cases o1 with
      | panicked p => simp [inferExpr, hmemo, hflag, hexpr, h1]; exact d1
      | ok lhsTy =>
        rcases h2 : inferExpr fuel env idx s1 with ⟨o2, s2⟩
        have d2 := diags_pair h2 (ih.inferE env idx s1 d1)
        cases o2 with
        | panicked p => simp [inferExpr, hmemo, hflag, hexpr, h1, h2]; exact d2
        | ok indexTy =>
          simp [inferExpr, hmemo, hflag, hexpr, h1, h2]
          split
          · split
            · exact (diags_finishInfer ..).mpr d2
            · exact (diags_finishInfer ..).mpr ((diags_addDiagnostic ..).mpr d2)
          · split
            · exact (diags_finishInfer ..).mpr d2
            · exact (diags_finishInfer ..).mpr ((diags_addDiagnostic ..).mpr d2)
          · split
            · exact (diags_finishInfer ..).mpr d2
            · exact (diags_finishInfer ..).mpr ((diags_addDiagnostic ..).mpr d2)
          · split
            · exact (diags_finishInfer ..).mpr d2
            · exact (diags_finishInfer ..).mpr ((diags_addDiagnostic ..).mpr d2)
          · exact (diags_finishInfer ..).mpr d2
          · exact (diags_finishInfer ..).mpr d2
          · exact (diags_finishInfer ..).mpr d2
          · exact (diags_finishInfer ..).mpr ((diags_addDiagnostic ..).mpr d2)
    | call callee args =>
      rcases h1 : inferExpr fuel env callee s with ⟨o1, s1⟩
      have d1 := diags_pair h1 (ih.inferE env callee s hs)
      cases o1 with
      | panicked p => simp [inferExpr, hmemo, hflag, hexpr, h1]; exact d1
      | ok calleeTy =>
        rcases h2 : inferCallArgs fuel env args s1 with ⟨o2, s2⟩
        have d2 := diags_pair h2 (ih.callArgs env args s1 d1)
        cases o2 with
        | panicked p => simp [inferExpr, hmemo, hflag, hexpr, h1, h2]; exact d2
        | ok argsWithTy =>
          simp [inferExpr, hmemo, hflag, hexpr, h1, h2]
          split
          · exact (diags_finishInfer ..).mpr d2
          · rename_i func subst
            have dp := diags_processArgs env argsWithTy
              (buildSlots (env.builtinFns func).params false) s2 d2
            split
            · rename_i p s4 heq
              exact diags_pair heq (diags_validateSlots env e subst _ _ dp)
            · rename_i u s4 heq
              have dv := diags_pair heq (diags_validateSlots env e subst _ _ dp)
              split
              · exact dv
              · exact (diags_finishInfer ..).mpr dv
          · exact (diags_finishInfer ..).mpr d2
          · exact (diags_finishInfer ..).mpr d2
          · exact (diags_finishInfer ..).mpr d2
          · exact (diags_finishInfer ..).mpr d2
          · exact (diags_finishInfer ..).mpr ((diags_addDiagnostic ..).mpr d2)
    | tuple es =>
      rcases h1 : inferExprTys fuel env es s with ⟨o1, s1⟩
      have d1 := diags_pair h1 (ih.exprTys env es s hs)
      cases o1 with
      | panicked p => simp [inferExpr, hmemo, hflag, hexpr, h1]; exact d1
      | ok tys =>
        simp [inferExpr, hmemo, hflag, hexpr, h1]
        exact (diags_finishInfer ..).mpr d1
    | missing =>
      simp [inferExpr, hmemo, hflag, hexpr]
      exact (diags_finishInfer ..).mpr hs
    | paren inner =>
      simp [inferExpr, hmemo, hflag, hexpr]
      exact (diags_finishInfer ..).mpr hs
    | lambda ps body =>
      simp [inferExpr, hmemo, hflag, hexpr]
      exact (diags_finishInfer ..).mpr hs
    | ifExpr t c el =>
      simp [inferExpr, hmemo, hflag, hexpr]
      exact (diags_finishInfer ..).mpr hs
  common := by
    intro env es dflt s hs
    cases es with
    | nil => exact hs
    | cons first rest =>
      rcases h1 : inferExpr fuel env first s with ⟨o, s1⟩
      have d1 := diags_pair h1 (ih.inferE env first s hs)
      cases o with
      | panicked p => simp only [getCommonType, h1]; exact d1
      | ok t =>
        simp only [getCommonType, h1]
        exact ih.commonLoop env rest t dflt s1 d1
  commonLoop := by
    intro env es firstTy dflt s hs
    cases es with
    | nil => exact hs
    | cons e rest =>
      rcases h1 : inferExpr fuel env e s with ⟨o, s1⟩
      have d1 := diags_pair h1 (ih.inferE env e s hs)
      cases o with
      | panicked p => simp only [getCommonTypeLoop, h1]; exact d1
      | ok t =>
        simp only [getCommonTypeLoop, h1]
        split
        · exact ih.commonLoop env rest firstTy dflt s1 d1
        · exact d1
  exprTys := by
    intro env es s hs
    cases es with
    | nil => exact hs
    | cons e rest =>
      rcases h1 : inferExpr fuel env e s with ⟨o, s1⟩
      have d1 := diags_pair h1 (ih.inferE env e s hs)
      cases o with
      | panicked p => simp only [inferExprTys, h1]; exact d1
      | ok t =>
        rcases h2 : inferExprTys fuel env rest s1 with ⟨o2, s2⟩
        have d2 := diags_pair h2 (ih.exprTys env rest s1 d1)
        cases o2 with
        | panicked p => simp only [inferExprTys, h1, h2]; exact d2
        | ok tys => simp only [inferExprTys, h1, h2]; exact d2
  callArgs := by
    intro env args s hs
    cases args with
    | nil => exact hs
    | cons arg rest =>
      rcases h1 : inferExpr fuel env arg.expr s with ⟨o, s1⟩
      have d1 := diags_pair h1 (ih.inferE env arg.expr s hs)
      cases o with
      | panicked p => simp only [inferCallArgs, h1]; exact d1
      | ok t =>
        rcases h2 : inferCallArgs fuel env rest s1 with ⟨o2, s2⟩
        have d2 := diags_pair h2 (ih.callArgs env rest s1 d1)
        cases o2 with
        | panicked p => simp only [inferCallArgs, h1, h2]; exact d2
        | ok pairs => simp only [inferCallArgs, h1, h2]; exact d2
  unaryE := by
    intro env parent opExpr op s hs
    rcases h1 : inferExpr fuel env opExpr s with ⟨o, s1⟩
    have d1 := diags_pair h1 (ih.inferE env opExpr s hs)
    cases o with
    | panicked p => simp only [inferUnaryExpr, h1]; exact d1
    | ok ty =>
      simp only [inferUnaryExpr, h1]
      split
      · exact d1
      · split
        · exact d1
        · split
          · split
            · exact d1
            · exact d1
            · exact (diags_addDiagnostic ..).mpr d1
          · split
            · exact d1
            · exact d1
            · exact (diags_addDiagnostic ..).mpr d1
          · split
            · exact d1
            · exact (diags_addDiagnostic ..).mpr d1
          · exact d1
  binaryE := by
    intro env parent lhs rhs op s hs
    rcases h1 : inferExpr fuel env lhs s with ⟨o1, s1⟩
    have d1 := diags_pair h1 (ih.inferE env lhs s hs)
    cases o1 with
    | panicked p => simp only [inferBinaryExpr, h1]; exact d1
    | ok lhsTy =>
      rcases h2 : inferExpr fuel env rhs s1 with ⟨o2, s2⟩
      have d2 := diags_pair h2 (ih.inferE env rhs s1 d1)
      cases o2 with
      | panicked p => simp only [inferBinaryExpr, h1, h2]; exact d2
      | ok rhsTy =>
        simp only [inferBinaryExpr, h1, h2]
        split
        · exact d2
        · split
          · split
            · split
              · exact d2
              · exact (diags_addDiagnostic ..).mpr d2
            · exact d2
            · exact d2
            · exact d2
            · exact d2
            · exact (diags_addDiagnostic ..).mpr d2
          · split
            · exact d2
            · exact (diags_addDiagnostic ..).mpr d2
          · exact d2
  sourceAssign := by
    intro env source s hs
    cases hpar : env.parentOf source with
    | none => simp only [inferSourceExprAssign, hpar]; exact hs
    | some parent =>
      rcases h1 : inferExpr fuel env source s with ⟨o, s1⟩
      have d1 := diags_pair h1 (ih.inferE env source s hs)
      cases o with
      | panicked p => simp only [inferSourceExprAssign, hpar, h1]; exact d1
      | ok ty0 =>
        simp only [inferSourceExprAssign, hpar, h1]
        generalize (if (ty0 == TyKind.unbound) = true then TyKind.unknown else ty0) = sTy
        cases parent with
        | assignStmt lhsOpt =>
          cases lhsOpt with
          | some lhs => exact ih.exprSrc env lhs lhs sTy s1 d1
          | none => exact d1
        | forParent targets =>
          cases sTy with
          | list t => exact ih.forTargets env source targets t s1 d1
          | tuple tys => exact ih.forTargets env source targets .any s1 d1
          | any => exact ih.forTargets env source targets .any s1 d1
          | range => exact ih.forTargets env source targets .int s1 d1
          | unbound => exact ih.unknownL env targets _ ((diags_addDiagnostic ..).mpr d1)
          | unknown => exact ih.unknownL env targets _ ((diags_addDiagnostic ..).mpr d1)
          | none => exact ih.unknownL env targets _ ((diags_addDiagnostic ..).mpr d1)
          | bool => exact ih.unknownL env targets _ ((diags_addDiagnostic ..).mpr d1)
          | int => exact ih.unknownL env targets _ ((diags_addDiagnostic ..).mpr d1)
          | float => exact ih.unknownL env targets _ ((diags_addDiagnostic ..).mpr d1)
          | string => exact ih.unknownL env targets _ ((diags_addDiagnostic ..).mpr d1)
          | stringElems => exact ih.unknownL env targets _ ((diags_addDiagnostic ..).mpr d1)
          | bytes => exact ih.unknownL env targets _ ((diags_addDiagnostic ..).mpr d1)
          | bytesElems => exact ih.unknownL env targets _ ((diags_addDiagnostic ..).mpr d1)
          | dict k v => exact ih.unknownL env targets _ ((diags_addDiagnostic ..).mpr d1)
          | function f => exact ih.unknownL env targets _ ((diags_addDiagnostic ..).mpr d1)
          | builtinFunction f sub => exact ih.unknownL env targets _ ((diags_addDiagnostic ..).mpr d1)
          | customFunction f => exact ih.unknownL env targets _ ((diags_addDiagnostic ..).mpr d1)
          | customType c => exact ih.unknownL env targets _ ((diags_addDiagnostic ..).mpr d1)
          | boundVar i => exact ih.unknownL env targets _ ((diags_addDiagnostic ..).mpr d1)
        | other => exact d1
  forTargets := by
    intro env source targets subTy s hs
    cases targets with
    | nil => exact ih.exprsSrc env source [] subTy s hs
    | cons t rest =>
      cases rest with
      | nil => exact ih.exprSrc env t t subTy s hs
      | cons t2 rest2 => exact ih.exprsSrc env source (t :: t2 :: rest2) subTy s hs
  exprSrc := by
    intro env root e sourceTy s hs
    cases hexpr : env.module.expr e with
    | name nm => simp only [assignExprSourceTy, hexpr]; exact hs
    | list es =>
      simp only [assignExprSourceTy, hexpr]
      exact ih.exprsSrc env root es sourceTy s hs
    | tuple es =>
      simp only [assignExprSourceTy, hexpr]
      exact ih.exprsSrc env root es sourceTy s hs
    | paren inner =>
      simp only [assignExprSourceTy, hexpr]
      exact ih.exprSrc env root inner sourceTy s hs
    | missing => simp only [assignExprSourceTy, hexpr]; exact hs
    | literal l => simp only [assignExprSourceTy, hexpr]; exact hs
    | listComp b c => simp only [assignExprSourceTy, hexpr]; exact hs
    | dict en => simp only [assignExprSourceTy, hexpr]; exact hs
    | dictComp en c => simp only [assignExprSourceTy, hexpr]; exact hs
    | unary o oe => simp only [assignExprSourceTy, hexpr]; exact hs
    | binary l r o => simp only [assignExprSourceTy, hexpr]; exact hs
    | dot r f => simp only [assignExprSourceTy, hexpr]; exact hs
    | index l i => simp only [assignExprSourceTy, hexpr]; exact hs
    | call c a => simp only [assignExprSourceTy, hexpr]; exact hs
    | lambda p b => simp only [assignExprSourceTy, hexpr]; exact hs
    | ifExpr t c el => simp only [assignExprSourceTy, hexpr]; exact hs
  exprsSrc := by
    intro env root es sourceTy s hs
    cases sourceTy with
    | list t => exact ih.eachTy env root es t s hs
    | tuple tys =>
      rcases h1 : assignPairs fuel env root (es.zip tys) s with ⟨o, s1⟩
      have d1 := diags_pair h1 (ih.pairsTy env root (es.zip tys) s hs)
      cases o with
      | panicked p => simp only [assignExprsSourceTy, h1]; exact d1
      | ok u =>
        simp only [assignExprsSourceTy, h1]
        split
        · by_cases hlt : tys.length < es.length
          · rw [if_pos hlt]
            rcases h2 : assignUnknownList fuel env (es.drop tys.length) s1 with ⟨o2, s2⟩
            have d2 := diags_pair h2 (ih.unknownL env (es.drop tys.length) s1 d1)
            cases o2 with
            | panicked p => exact d2
            | ok u2 => exact (diags_addDiagnostic ..).mpr d2
          · rw [if_neg hlt]
            exact (diags_addDiagnostic ..).mpr d1
        · exact d1
    | any => exact ih.eachTy env root es .any s hs
    | unknown =>
      exact ih.unknownL env es _ ((diags_addDiagnostic ..).mpr hs)
    | unbound =>
      exact ih.unknownL env es _ ((diags_addDiagnostic ..).mpr hs)
    | int => exact ih.unknownL env es _ ((diags_addDiagnostic ..).mpr hs)
    | float => exact ih.unknownL env es _ ((diags_addDiagnostic ..).mpr hs)
    | bool => exact ih.unknownL env es _ ((diags_addDiagnostic ..).mpr hs)
    | string => exact ih.unknownL env es _ ((diags_addDiagnostic ..).mpr hs)
    | stringElems => exact ih.unknownL env es _ ((diags_addDiagnostic ..).mpr hs)
    | bytes => exact ih.unknownL env es _ ((diags_addDiagnostic ..).mpr hs)
    | bytesElems => exact ih.unknownL env es _ ((diags_addDiagnostic ..).mpr hs)
    | dict k v => exact ih.unknownL env es _ ((diags_addDiagnostic ..).mpr hs)
    | none => exact ih.unknownL env es _ ((diags_addDiagnostic ..).mpr hs)
    | range => exact ih.unknownL env es _ ((diags_addDiagnostic ..).mpr hs)
    | boundVar i => exact ih.unknownL env es _ ((diags_addDiagnostic ..).mpr hs)
    | function f => exact ih.unknownL env es _ ((diags_addDiagnostic ..).mpr hs)
    | builtinFunction f sub => exact ih.unknownL env es _ ((diags_addDiagnostic ..).mpr hs)
    | customFunction f => exact ih.unknownL env es _ ((diags_addDiagnostic ..).mpr hs)
    | customType c => exact ih.unknownL env es _ ((diags_addDiagnostic ..).mpr hs)
  eachTy := by
    intro env root es t s hs
    cases es with
    | nil => exact hs
    | cons e rest =>
      rcases h1 : assignExprSourceTy fuel env root e t s with ⟨o, s1⟩
      have d1 := diags_pair h1 (ih.exprSrc env root e t s hs)
      cases o with
      | panicked p => simp only [assignEach, h1]; exact d1
      | ok u =>
        simp only [assignEach, h1]
        exact ih.eachTy env root rest t s1 d1
  pairsTy := by
    intro env root prs s hs
    cases prs with
    | nil => exact hs
    | cons pr rest =>
      rcases pr with ⟨e, ty⟩
      rcases h1 : assignExprSourceTy fuel env root e ty s with ⟨o, s1⟩
      have d1 := diags_pair h1 (ih.exprSrc env root e ty s hs)
      cases o with
      | panicked p => simp only [assignPairs, h1]; exact d1
      | ok u =>
        simp only [assignPairs, h1]
        exact ih.pairsTy env root rest s1 d1
  unknownL := by
    intro env es s hs
    cases es with
    | nil => exact hs
    | cons e rest =>
      rcases h1 : assignExprUnknownRec fuel env e s with ⟨o, s1⟩
      have d1 := diags_pair h1 (ih.unknownRec env e s hs)
      cases o with
      | panicked p => simp only [assignUnknownList, h1]; exact d1
      | ok u =>
        simp only [assignUnknownList, h1]
        exact ih.unknownL env rest s1 d1
  unknownRec := by
    intro env e s hs
    exact ih.unknownL env (env.module.expr e).childExprs _ hs

/-- The severity-purity invariant holds at every fuel. -/
theorem diags_engine : ∀ fuel : Nat, DiagsEngineInv fuel
  | 0 => diagsEngineInv_zero
  | fuel + 1 => diagsEngineInv_succ fuel (diags_engine fuel)

/-- C10: every diagnostic emitted by the type-inference engine has severity
`Error`.  Starting from any state whose accumulated diagnostics are all
`Error` (in particular the empty initial state), an `infer_expr` run — at any
fuel, over any environment and any expression — leaves a state whose
diagnostics are still all of severity `Error`: the engine funnels every
diagnostic through `add_diagnostic_for_range`, which hardcodes
`Severity::Error`, so inference never produces a `Warning`. -/
theorem infer_diagnostics_all_error (fuel : Nat) (env : Env) (e : Nat) (s : St)
    (hs : DiagsAllError s) : DiagsAllError (inferExpr fuel env e s).2 :=
  (diags_engine fuel).inferE env e s hs

/-- C10 witness: a run over an undefined name, which emits a diagnostic, from
the empty initial state. -/
theorem infer_diagnostics_all_error_witness :
    DiagsAllError (inferExpr 1 (sampleEnv [.name "undefined_name"]) 0 initSt).2 :=
  infer_diagnostics_all_error 1 (sampleEnv [.name "undefined_name"]) 0 initSt
    (fun dg hdg => absurd hdg (List.not_mem_nil dg))

/-- C8: `infer_expr` is not idempotent.  In the program
`((c.f,), c) = (1, x)` with `x : Any`, the first `infer_expr` call on the
dot expression `c.f` destructures the assignment while inferring the
receiver `c`: the non-iterable inner element diagnoses and caches
`c.f ↦ Unknown` (`assign_expr_unknown_rec`), the pattern name `c` gets
`Any`, so the receiver infers to `Any` and the `Dot` arm's `is_any` early
return yields `Any` without writing the memo.  The second call memo-hits the
stale `Unknown`: the two calls return different interned types. -/
theorem infer_expr_idempotence_bug :
    (inferExpr 20 envDotNonIdem 5 initSt).1 = .ok .any ∧
    (inferExpr 20 envDotNonIdem 5 (inferExpr 20 envDotNonIdem 5 initSt).2).1 =
      .ok .unknown ∧
    TyKind.any ≠ TyKind.unknown := by
  decide
